import Mathlib

/-!
# CalSnap (`src/index.js`) — shallow embedding and verification

This file embeds the calendar-feed pipeline of the CalSnap Cloudflare worker
(`src/index.js`) in Lean 4 and settles the frozen claims about it.

Modelling conventions:
* JavaScript strings are Lean `String`s; character-level reasoning goes
  through `String.data : List Char`.
* JavaScript field values coming from the upstream API are modelled by the
  flat value type `JSVal` (`undefined`, `null`, booleans, integers, strings);
  JSON values stored in the key-value store are modelled by `JVal` which also
  has objects.  Truthiness follows JavaScript.
* The key-value store is an association list `Store` with `storeGet`,
  `storePut`, `storeDelete`.
* `Date` parsing, `toISOString`-based formatting, and `toLocaleTimeString`
  are oracles carried in a `Ctx` structure; `Date.now()` is `Ctx.now`.
  JS number-to-string conversion (template interpolation, `toString()`) is
  modelled by the decimal renderer `intDec`.
* Mutating effects (store puts/deletes, upstream fetches) are accumulated in
  a `List Eff` trace; store reads are not traced.
* Exceptions that the source lets escape (e.g. `JSON.parse` on malformed
  input, `toISOString` on an invalid date, `.replace`/`.includes` on a
  non-string) are modelled by `Except Unit` / the `Outcome.thrown` case.
-/

/-- A JavaScript runtime value as it occurs in upstream API records
(flat: the event records are flat name/value collections). -/
inductive JSVal where
  | vundefined : JSVal
  | vnull : JSVal
  | vbool : Bool → JSVal
  | vnum : Int → JSVal
  | vstr : String → JSVal
  deriving DecidableEq, Repr

/-- JavaScript truthiness for `JSVal`. -/
def jsTruthy : JSVal → Bool
  | .vundefined => false
  | .vnull => false
  | .vbool b => b
  | .vnum n => n != 0
  | .vstr s => s != ""

/-- JavaScript string conversion (template-literal interpolation) for `JSVal`.
Numbers are rendered by `intDec` (defined below); forward declaration via
`natDecL`. -/
def digitChar10 : Nat → Char
  | 0 => '0' | 1 => '1' | 2 => '2' | 3 => '3' | 4 => '4'
  | 5 => '5' | 6 => '6' | 7 => '7' | 8 => '8' | _ => '9'

/-- Decimal digits of a natural number, most significant first.
Models the decimal rendering a JS engine performs for integral numbers. -/
def natDecL (n : Nat) : List Char :=
  if _h : n < 10 then [digitChar10 n]
  else natDecL (n / 10) ++ [digitChar10 (n % 10)]
  decreasing_by exact Nat.div_lt_self (by omega) (by omega)

/-- Decimal rendering of an integer (JS `${n}` / `n.toString()` for integral
numbers). -/
def intDec (i : Int) : String :=
  if i < 0 then "-" ++ ⟨natDecL (-i).toNat⟩ else ⟨natDecL i.toNat⟩

def jsToString : JSVal → String
  | .vundefined => "undefined"
  | .vnull => "null"
  | .vbool b => if b then "true" else "false"
  | .vnum n => intDec n
  | .vstr s => s

/-- JavaScript `a || b` on values: the first truthy operand, else the last. -/
def jsOr (a b : JSVal) : JSVal := if jsTruthy a then a else b

/-- Truthiness of a nullable string (a KV `get` result: `string | null`). -/
def optTruthy : Option String → Bool
  | some s => s != ""
  | none => false

/-- JavaScript `a || b || ... || d` for nullable strings against a default. -/
def strOr (o : Option String) (d : String) : String :=
  match o with
  | some s => if s = "" then d else s
  | none => d

/-- An upstream event record: the `data` array of `{name, value}` entries of
one item of a TeamSnap collection. -/
structure RawEvent where
  data : List (String × JSVal)
  deriving DecidableEq, Repr

/-- `event.data?.find(d => d.name === n)?.value` — first entry wins. -/
def findVal (ev : RawEvent) (n : String) : JSVal :=
  match ev.data.find? (fun p => p.1 == n) with
  | some p => p.2
  | none => .vundefined

/-- Property `n` of the object built by
`event.data.forEach(d => eventData[d.name] = d.value)` — the last entry with
a given name wins. -/
def lastVal (ev : RawEvent) (n : String) : JSVal :=
  match ev.data.reverse.find? (fun p => p.1 == n) with
  | some p => p.2
  | none => .vundefined

/-- The key-value store (Cloudflare KV namespace): an association list from
key to string value.  TTLs are not modelled. -/
abbrev Store := List (String × String)

def storeGet (st : Store) (k : String) : Option String :=
  match st.find? (fun p => p.1 == k) with
  | some p => some p.2
  | none => none

def storePut (st : Store) (k v : String) : Store :=
  (k, v) :: st.filter (fun p => p.1 != k)

def storeDelete (st : Store) (k : String) : Store :=
  st.filter (fun p => p.1 != k)

/-- Traced effects: store mutations and upstream network calls. -/
inductive Eff where
  | putK : String → String → Eff
  | delK : String → Eff
  | fetchTeam : Eff
  | fetchEvents : Eff
  | fetchLocation : String → Eff
  | fetchRefresh : Eff
  deriving DecidableEq, Repr

/-! ## ICS text-value escaping (`src/index.js` lines 269, 276, 312)

`description.replace(/\n/g, '\\n').replace(/,/g, '\\,')` and
`....replace(/,/g, '\\,')` are modelled character by character. -/

/-- `s.replace(/,/g, '\\,')` on the character list. -/
def escCommasL : List Char → List Char
  | [] => []
  | c :: rest => if c = ',' then '\\' :: ',' :: escCommasL rest else c :: escCommasL rest

/-- `s.replace(/\n/g, '\\n')` on the character list. -/
def escNewlinesL : List Char → List Char
  | [] => []
  | c :: rest => if c = '\n' then '\\' :: 'n' :: escNewlinesL rest else c :: escNewlinesL rest

def escCommas (s : String) : String := ⟨escCommasL s.data⟩

def escNewlines (s : String) : String := ⟨escNewlinesL s.data⟩

/-- Helper: every `,` in the list is immediately preceded by a `\`;
`prev` is the character preceding the list head. -/
def ceAux : Char → List Char → Bool
  | _, [] => true
  | prev, c :: rest => ((c != ',') || (prev == '\\')) && ceAux c rest

/-- Every comma in the list is immediately preceded by a backslash — the
positional form of "every comma is escaped as `\,`". -/
def commasEscapedL : List Char → Bool
  | [] => true
  | c :: rest => (c != ',') && ceAux c rest

def commasEscaped (s : String) : Bool := commasEscapedL s.data

theorem ceAux_escCommasL (l : List Char) : ∀ prev : Char, ceAux prev (escCommasL l) = true := by
  induction l with
  | nil => intro prev; rfl
  | cons c rest ih =>
    intro prev
    by_cases hc : c = ','
    · simp [escCommasL, hc, ceAux, ih]
    · simp [escCommasL, hc, ceAux, ih]

theorem commasEscapedL_escCommasL (l : List Char) : commasEscapedL (escCommasL l) = true := by
  cases l with
  | nil => rfl
  | cons c rest =>
    by_cases hc : c = ','
    · simp [escCommasL, hc, commasEscapedL, ceAux, ceAux_escCommasL]
    · simp [escCommasL, hc, commasEscapedL, ceAux, ceAux_escCommasL]

theorem newline_notMem_escNewlinesL (l : List Char) : '\n' ∉ escNewlinesL l := by
  induction l with
  | nil => simp [escNewlinesL]
  | cons c rest ih =>
    by_cases hc : c = '\n'
    · simp [escNewlinesL, hc, ih]
    · simp [escNewlinesL, hc, ih]
      exact fun hh => hc hh.symm

theorem newline_notMem_escCommasL (l : List Char) (h : '\n' ∉ l) : '\n' ∉ escCommasL l := by
  induction l with
  | nil => simp [escCommasL]
  | cons c rest ih =>
    have hc' : c ≠ '\n' := fun hh => h (hh ▸ List.mem_cons_self c rest)
    have hrest : '\n' ∉ rest := fun hh => h (List.mem_cons_of_mem c hh)
    by_cases hc : c = ','
    · simp [escCommasL, hc, ih hrest]
    · simp [escCommasL, hc, ih hrest]
      exact fun hh => hc' hh.symm

/-! ## Injectivity of the decimal rendering

Used for the "different instants carry different ETag values" part of the
fresh-clock claim: reading a rendered decimal back recovers the number. -/

/-- Value of a single decimal digit character. -/
def digitVal (c : Char) : Nat := c.toNat - 48

/-- Read a digit string back to the number it denotes. -/
def decValL (l : List Char) : Nat := l.foldl (fun a c => a * 10 + digitVal c) 0

theorem digitVal_digitChar10 (n : Nat) (h : n < 10) : digitVal (digitChar10 n) = n := by
  interval_cases n <;> decide

theorem digitChar10_isDigit (n : Nat) : (digitChar10 n).isDigit = true := by
  rcases n with _ | _ | _ | _ | _ | _ | _ | _ | _ | n <;> rfl

theorem decValL_append_digit (l : List Char) (c : Char) :
    decValL (l ++ [c]) = decValL l * 10 + digitVal c := by
  simp [decValL, List.foldl_append]

theorem decValL_natDecL (n : Nat) : decValL (natDecL n) = n := by
  induction n using Nat.strong_induction_on with
  | _ n ih =>
    by_cases h : n < 10
    · rw [natDecL, dif_pos h]
      simp [decValL, digitVal_digitChar10 n h]
    · rw [natDecL, dif_neg h]
      rw [decValL_append_digit, ih (n / 10) (Nat.div_lt_self (by omega) (by omega)),
        digitVal_digitChar10 (n % 10) (Nat.mod_lt _ (by omega))]
      omega

theorem natDecL_injective : Function.Injective natDecL := by
  intro a b hab
  have := decValL_natDecL a
  rw [hab, decValL_natDecL] at this
  omega

theorem mem_natDecL_isDigit (n : Nat) : ∀ c ∈ natDecL n, c.isDigit = true := by
  induction n using Nat.strong_induction_on with
  | _ n ih =>
    intro c hc
    by_cases h : n < 10
    · rw [natDecL, dif_pos h] at hc
      simp only [List.mem_singleton] at hc
      exact hc ▸ digitChar10_isDigit n
    · rw [natDecL, dif_neg h] at hc
      rcases List.mem_append.mp hc with h1 | h1
      · exact ih (n / 10) (Nat.div_lt_self (by omega) (by omega)) c h1
      · simp only [List.mem_singleton] at h1
        exact h1 ▸ digitChar10_isDigit (n % 10)

theorem natDecL_ne_nil (n : Nat) : natDecL n ≠ [] := by
  by_cases h : n < 10
  · rw [natDecL, dif_pos h]; simp
  · rw [natDecL, dif_neg h]; simp

theorem minus_head_not_natDecL (m : Nat) (l : List Char) :
    '-' :: l ≠ natDecL m := by
  intro hcon
  have hmem : '-' ∈ natDecL m := hcon ▸ List.mem_cons_self '-' l
  have := mem_natDecL_isDigit m '-' hmem
  exact absurd this (by decide)

theorem intDec_injective : Function.Injective intDec := by
  intro a b hab
  unfold intDec at hab
  by_cases ha : a < 0 <;> by_cases hb : b < 0 <;>
    simp only [ha, hb, if_pos, if_neg, if_true, if_false, ite_true, ite_false] at hab
  · have hdat := congrArg String.data hab
    simp only [String.data_append, List.cons_append, List.nil_append,
      List.cons.injEq, true_and] at hdat
    have h2 := natDecL_injective hdat
    omega
  · exfalso
    have hdat := congrArg String.data hab
    simp only [String.data_append, List.cons_append, List.nil_append] at hdat
    exact minus_head_not_natDecL b.toNat _ hdat
  · exfalso
    have hdat := congrArg String.data hab.symm
    simp only [String.data_append, List.cons_append, List.nil_append] at hdat
    exact minus_head_not_natDecL a.toNat _ hdat
  · have hdat : natDecL a.toNat = natDecL b.toNat := congrArg String.data hab
    have h2 := natDecL_injective hdat
    omega

/-! ## JSON values and a model of `JSON.parse` / `JSON.stringify`

`parseCalendarToken` (line 406) parses the stored mapping with `JSON.parse`
and `handleTeamsApi` (lines 752, 757) stores `JSON.stringify({teamId,
filterType})`.  `jsonParse` models `JSON.parse` restricted to the value
shapes relevant here (null, booleans, integers, strings with the common
escapes, flat-or-nested objects); `jsonParse s = none` models a thrown
`SyntaxError`. -/

/-- A JSON value as produced by `JSON.parse`. -/
inductive JVal where
  | jnull : JVal
  | jbool : Bool → JVal
  | jnum : Int → JVal
  | jstr : String → JVal
  | jobj : List (String × JVal) → JVal

/-- JavaScript truthiness of a parsed JSON value. -/
def jvTruthy : JVal → Bool
  | .jnull => false
  | .jbool b => b
  | .jnum n => n != 0
  | .jstr s => s != ""
  | .jobj _ => true

/-- Property access / destructuring on a parsed JSON value: objects yield
the last binding with the given name (`JSON.parse` keeps the last duplicate
key); all other values have no own properties, giving `undefined` (`none`). -/
def jvProp (v : JVal) (name : String) : Option JVal :=
  match v with
  | .jobj fields =>
    match fields.reverse.find? (fun p => p.1 == name) with
    | some p => some p.2
    | none => none
  | _ => none

/-- String interpolation of a parsed JSON value (`${x}`). -/
def jvToString : JVal → String
  | .jnull => "null"
  | .jbool b => if b then "true" else "false"
  | .jnum n => intDec n
  | .jstr s => s
  | .jobj _ => "[object Object]"

/-- String interpolation of a destructured property that may be absent
(`undefined` interpolates as `"undefined"`). -/
def jvPropToString (v : JVal) (name : String) : String :=
  match jvProp v name with
  | some x => jvToString x
  | none => "undefined"

/-- JSON string-escape map (the escapes `JSON.stringify` emits for the
characters that occur in this program's data). -/
def unescJson (c : Char) : Option Char :=
  if c = 'n' then some '\n'
  else if c = 't' then some '\t'
  else if c = 'r' then some '\r'
  else if c = '"' ∨ c = '\\' ∨ c = '/' then some c
  else none

/-- Body of a JSON string after the opening quote: returns the decoded
characters and the remainder after the closing quote. -/
def parseStrBody : List Char → Option (List Char × List Char)
  | [] => none
  | c :: rest =>
    if c = '"' then some ([], rest)
    else if c = '\\' then
      match rest with
      | [] => none
      | e :: rest2 =>
        match unescJson e with
        | some u => (parseStrBody rest2).map fun p => (u :: p.1, p.2)
        | none => none
    else (parseStrBody rest).map fun p => (c :: p.1, p.2)

/-- Leading run of decimal digits. -/
def parseDigits (l : List Char) : Option (Nat × List Char) :=
  let ds := l.takeWhile (fun c => c.isDigit)
  if ds.isEmpty then none else some (decValL ds, l.drop ds.length)

mutual

/-- Parse one JSON value (fuel-indexed). -/
def parseVal : Nat → List Char → Option (JVal × List Char)
  | 0, _ => none
  | fuel+1, input =>
    match input with
    | [] => none
    | c :: rest =>
      if c = '"' then (parseStrBody rest).map fun p => (JVal.jstr ⟨p.1⟩, p.2)
      else if c = '\x7b' then
        if rest.head? = some '\x7d' then some (JVal.jobj [], rest.tail)
        else parseMembers fuel rest
      else if c = '-' then (parseDigits rest).map fun p => (JVal.jnum (-(p.1 : Int)), p.2)
      else if c = 'n' then
        if rest.take 3 = ['u', 'l', 'l'] then some (JVal.jnull, rest.drop 3) else none
      else if c = 't' then
        if rest.take 3 = ['r', 'u', 'e'] then some (JVal.jbool true, rest.drop 3) else none
      else if c = 'f' then
        if rest.take 4 = ['a', 'l', 's', 'e'] then some (JVal.jbool false, rest.drop 4) else none
      else (parseDigits (c :: rest)).map fun p => (JVal.jnum (p.1 : Int), p.2)

/-- Parse the members of a JSON object after the opening brace, returning
the object value and the remainder after the closing brace. -/
def parseMembers : Nat → List Char → Option (JVal × List Char)
  | 0, _ => none
  | fuel+1, input =>
    match input with
    | [] => none
    | c :: rest =>
      if c = '"' then
        match parseStrBody rest with
        | none => none
        | some (k, r1) =>
          match r1 with
          | [] => none
          | c1 :: r2 =>
            if c1 = ':' then
              match parseVal fuel r2 with
              | none => none
              | some (v, r3) =>
                match r3 with
                | [] => none
                | c2 :: r4 =>
                  if c2 = ',' then
                    match parseMembers fuel r4 with
                    | none => none
                    | some (JVal.jobj ms, r5) => some (JVal.jobj ((⟨k⟩, v) :: ms), r5)
                    | some _ => none
                  else if c2 = '\x7d' then some (JVal.jobj [(⟨k⟩, v)], r4)
                  else none
            else none
      else none

end

/-- Model of `JSON.parse(s)`: `none` models a thrown `SyntaxError`. -/
def jsonParse (s : String) : Option JVal :=
  match parseVal (s.data.length + 4) s.data with
  | some (v, []) => some v
  | _ => none

/-- JSON string escaping (`JSON.stringify` on a string, for the escapes
this program's data can contain). -/
def escJsonL : List Char → List Char
  | [] => []
  | c :: rest =>
    if c = '\\' then '\\' :: '\\' :: escJsonL rest
    else if c = '"' then '\\' :: '"' :: escJsonL rest
    else if c = '\n' then '\\' :: 'n' :: escJsonL rest
    else if c = '\r' then '\\' :: 'r' :: escJsonL rest
    else if c = '\t' then '\\' :: 't' :: escJsonL rest
    else c :: escJsonL rest

def encodeJStr (s : String) : String := "\"" ++ ⟨escJsonL s.data⟩ ++ "\""

/-- `JSON.stringify({teamId, filterType})` as stored by `handleTeamsApi`
(lines 752-760). -/
def stringifyTokenMapping (teamId filterType : String) : String :=
  "\x7b\"teamId\":" ++ encodeJStr teamId ++ ",\"filterType\":" ++ encodeJStr filterType ++ "\x7d"

theorem parseStrBody_esc_step (e : Char) (u : Char) (tl : List Char)
    (hu : unescJson e = some u) :
    parseStrBody ('\\' :: e :: tl) = (parseStrBody tl).map fun p => (u :: p.1, p.2) := by
  rw [parseStrBody.eq_def]
  simp [hu]

theorem parseStrBody_plain_step (c : Char) (tl : List Char) (h2 : c ≠ '"') (h1 : c ≠ '\\') :
    parseStrBody (c :: tl) = (parseStrBody tl).map fun p => (c :: p.1, p.2) := by
  rw [parseStrBody.eq_def]
  simp [h1, h2]

theorem parseStrBody_escJsonL (l rest : List Char) :
    parseStrBody (escJsonL l ++ '"' :: rest) = some (l, rest) := by
  induction l with
  | nil =>
    rw [show escJsonL [] = [] from rfl, List.nil_append, parseStrBody.eq_def]
    simp
  | cons c cs ih =>
    by_cases h1 : c = '\\'
    · rw [show escJsonL (c :: cs) = '\\' :: '\\' :: escJsonL cs from by simp [escJsonL, h1],
        List.cons_append, List.cons_append,
        parseStrBody_esc_step '\\' '\\' _ (by rfl), ih]
      simp [h1]
    · by_cases h2 : c = '"'
      · rw [show escJsonL (c :: cs) = '\\' :: '"' :: escJsonL cs from by simp [escJsonL, h1, h2],
          List.cons_append, List.cons_append,
          parseStrBody_esc_step '"' '"' _ (by rfl), ih]
        simp [h2]
      · by_cases h3 : c = '\n'
        · rw [show escJsonL (c :: cs) = '\\' :: 'n' :: escJsonL cs from by
              simp [escJsonL, h1, h2, h3],
            List.cons_append, List.cons_append,
            parseStrBody_esc_step 'n' '\n' _ (by rfl), ih]
          simp [h3]
        · by_cases h4 : c = '\r'
          · rw [show escJsonL (c :: cs) = '\\' :: 'r' :: escJsonL cs from by
                simp [escJsonL, h1, h2, h3, h4],
              List.cons_append, List.cons_append,
              parseStrBody_esc_step 'r' '\r' _ (by rfl), ih]
            simp [h4]
          · by_cases h5 : c = '\t'
            · rw [show escJsonL (c :: cs) = '\\' :: 't' :: escJsonL cs from by
                  simp [escJsonL, h1, h2, h3, h4, h5],
                List.cons_append, List.cons_append,
                parseStrBody_esc_step 't' '\t' _ (by rfl), ih]
              simp [h5]
            · rw [show escJsonL (c :: cs) = c :: escJsonL cs from by
                  simp [escJsonL, h1, h2, h3, h4, h5],
                List.cons_append, parseStrBody_plain_step c _ h2 h1, ih]
              simp

theorem parseStrBody_plain_run (k : List Char) (r : List Char)
    (hk : ∀ c ∈ k, c ≠ '"' ∧ c ≠ '\\') :
    parseStrBody (k ++ '"' :: r) = some (k, r) := by
  induction k with
  | nil =>
    rw [List.nil_append, parseStrBody.eq_def]
    simp
  | cons c cs ih =>
    have hc := hk c (List.mem_cons_self c cs)
    rw [List.cons_append, parseStrBody.eq_def]
    simp only [if_neg hc.1, if_neg hc.2]
    rw [ih (fun x hx => hk x (List.mem_cons_of_mem c hx))]
    rfl

theorem data_stringifyTokenMapping (tid ft : String) :
    (stringifyTokenMapping tid ft).data =
      '\x7b' :: '"' :: 't' :: 'e' :: 'a' :: 'm' :: 'I' :: 'd' :: '"' :: ':' :: '"' ::
        (escJsonL tid.data ++ '"' :: ',' :: '"' :: 'f' :: 'i' :: 'l' :: 't' :: 'e' :: 'r' ::
          'T' :: 'y' :: 'p' :: 'e' :: '"' :: ':' :: '"' ::
            (escJsonL ft.data ++ ['"', '\x7d'])) := by
  have h1 : ("\x7b\"teamId\":" : String).data
      = ['\x7b', '"', 't', 'e', 'a', 'm', 'I', 'd', '"', ':'] := rfl
  have h2 : (",\"filterType\":" : String).data
      = [',', '"', 'f', 'i', 'l', 't', 'e', 'r', 'T', 'y', 'p', 'e', '"', ':'] := rfl
  have h3 : ("\x7d" : String).data = ['\x7d'] := rfl
  have h4 : ("\"" : String).data = ['"'] := rfl
  have h5 : ∀ l : List Char, (String.mk l).data = l := fun _ => rfl
  simp [stringifyTokenMapping, encodeJStr, String.data_append, h1, h2, h3, h4, h5]

theorem parseVal_jstr_esc (f : Nat) (s : String) (rest : List Char) :
    parseVal (f+1) ('"' :: (escJsonL s.data ++ '"' :: rest)) = some (JVal.jstr s, rest) := by
  rw [parseVal.eq_def]
  simp [parseStrBody_escJsonL]

theorem parseMembers_last (f : Nat) (k : List Char) (hk : ∀ c ∈ k, c ≠ '"' ∧ c ≠ '\\')
    (s : String) (r4 : List Char) :
    parseMembers (f+2)
        ('"' :: (k ++ '"' :: ':' :: '"' :: (escJsonL s.data ++ '"' :: '\x7d' :: r4)))
      = some (JVal.jobj [(⟨k⟩, JVal.jstr s)], r4) := by
  rw [parseMembers.eq_def]
  simp only [if_pos rfl]
  rw [show ('"' :: ':' :: '"' :: (escJsonL s.data ++ '"' :: '\x7d' :: r4))
      = '"' :: (':' :: '"' :: (escJsonL s.data ++ '"' :: '\x7d' :: r4)) from rfl]
  rw [parseStrBody_plain_run k _ hk]
  simp only [if_pos rfl]
  rw [parseVal_jstr_esc]
  simp

theorem parseMembers_cons (f : Nat) (k : List Char) (hk : ∀ c ∈ k, c ≠ '"' ∧ c ≠ '\\')
    (s : String) (tail : List Char) :
    parseMembers (f+2)
        ('"' :: (k ++ '"' :: ':' :: '"' :: (escJsonL s.data ++ '"' :: ',' :: tail)))
      = (match parseMembers (f+1) tail with
         | none => none
         | some (JVal.jobj ms, r5) => some (JVal.jobj ((⟨k⟩, JVal.jstr s) :: ms), r5)
         | some _ => none) := by
  rw [parseMembers.eq_def]
  simp only [if_pos rfl]
  rw [parseStrBody_plain_run k _ hk]
  simp only [if_pos rfl]
  rw [parseVal_jstr_esc]
  simp

theorem parseVal_tokenMapping (f : Nat) (tid ft : String) :
    parseVal (f+4) ((stringifyTokenMapping tid ft).data)
      = some (JVal.jobj [("teamId", JVal.jstr tid), ("filterType", JVal.jstr ft)], []) := by
  rw [data_stringifyTokenMapping]
  rw [parseVal.eq_def]
  simp only [if_neg (by decide : ¬ ('\x7b' : Char) = '"'), if_pos rfl, if_true,
    List.head?_cons]
  rw [if_neg (by decide : ¬ ((some '"') = some ('\x7d' : Char)))]
  rw [show ('"' :: 't' :: 'e' :: 'a' :: 'm' :: 'I' :: 'd' :: '"' :: ':' :: '"' ::
        (escJsonL tid.data ++ '"' :: ',' :: '"' :: 'f' :: 'i' :: 'l' :: 't' :: 'e' :: 'r' ::
          'T' :: 'y' :: 'p' :: 'e' :: '"' :: ':' :: '"' ::
            (escJsonL ft.data ++ ['"', '\x7d'])))
      = ('"' :: (['t', 'e', 'a', 'm', 'I', 'd'] ++ '"' :: ':' :: '"' ::
        (escJsonL tid.data ++ '"' :: ',' ::
          ('"' :: (['f', 'i', 'l', 't', 'e', 'r', 'T', 'y', 'p', 'e'] ++ '"' :: ':' :: '"' ::
            (escJsonL ft.data ++ '"' :: '\x7d' :: [])))))) from rfl]
  rw [show f+3 = (f+1)+2 from rfl]
  rw [parseMembers_cons (f+1) ['t', 'e', 'a', 'm', 'I', 'd'] (by decide) tid]
  rw [show (f+1)+1 = f+2 from rfl]
  rw [parseMembers_last f ['f', 'i', 'l', 't', 'e', 'r', 'T', 'y', 'p', 'e'] (by decide) ft]

theorem jsonParse_stringifyTokenMapping (tid ft : String) :
    jsonParse (stringifyTokenMapping tid ft)
      = some (JVal.jobj [("teamId", JVal.jstr tid), ("filterType", JVal.jstr ft)]) := by
  unfold jsonParse
  rw [parseVal_tokenMapping ((stringifyTokenMapping tid ft).data.length) tid ft]

/-! ## String search and replacement

`generateEventTitleSync` (line 450) replaces every occurrence of the team
name case-insensitively (`new RegExp(escaped, 'gi')`); the non-game branch of
`serveCalendar` (lines 342-344) uses `String.prototype.includes` and
`String.prototype.replace` with a string pattern — first occurrence only,
case-sensitive.  `$`-patterns in the replacement string are not modelled. -/

/-- Case-sensitive "the pattern occurs at the start". -/
def startsWithSeq : List Char → List Char → Bool
  | [], _ => true
  | _ :: _, [] => false
  | p :: ps, c :: cs => p == c && startsWithSeq ps cs

/-- `s.includes(pat)`. -/
def containsSeq (pat : List Char) : List Char → Bool
  | [] => startsWithSeq pat []
  | c :: cs => startsWithSeq pat (c :: cs) || containsSeq pat cs

/-- JS `s.replace(pat, repl)` with a plain string pattern: first occurrence
only, case-sensitive, unchanged when the pattern does not occur. -/
def replaceFirstL (pat repl : List Char) : List Char → List Char
  | [] => if pat = [] then repl else []
  | c :: cs =>
    if startsWithSeq pat (c :: cs) then repl ++ (c :: cs).drop pat.length
    else c :: replaceFirstL pat repl cs

/-- Case-insensitive character match, modelling a `RegExp` `i` flag. -/
def lowerEq (a b : Char) : Bool := a.toLower == b.toLower

/-- Case-insensitive "the pattern occurs at the start". -/
def ciStartsWithSeq : List Char → List Char → Bool
  | [], _ => true
  | _ :: _, [] => false
  | p :: ps, c :: cs => lowerEq p c && ciStartsWithSeq ps cs

/-- Fuel-indexed body of `replaceAllCIL` (the fuel strictly exceeds the
length of the remaining input, so the 0-fuel case is unreachable). -/
def replaceAllCIGo : Nat → List Char → List Char → List Char → List Char
  | 0, _, _, s => s
  | _+1, _, _, [] => []
  | fuel+1, pat, repl, c :: cs =>
    if pat ≠ [] ∧ ciStartsWithSeq pat (c :: cs) then
      repl ++ replaceAllCIGo fuel pat repl ((c :: cs).drop pat.length)
    else c :: replaceAllCIGo fuel pat repl cs

/-- JS `s.replace(new RegExp(escapedPat, 'gi'), repl)`: replace every
non-overlapping occurrence, left to right, case-insensitively.  (For the
empty pattern this model is the identity; the source only calls it with a
truthy, hence non-empty, team name.) -/
def replaceAllCIL (pat repl s : List Char) : List Char :=
  replaceAllCIGo (s.length + 1) pat repl s

theorem startsWithSeq_iff (pat s : List Char) :
    startsWithSeq pat s = true ↔ ∃ t, s = pat ++ t := by
  induction pat generalizing s with
  | nil => exact ⟨fun _ => ⟨s, (List.nil_append s).symm⟩, fun _ => rfl⟩
  | cons p ps ih =>
    cases s with
    | nil =>
      constructor
      · intro h
        rw [startsWithSeq.eq_def] at h
        simp at h
      · rintro ⟨t, ht⟩
        simp at ht
    | cons c cs =>
      rw [startsWithSeq.eq_def]
      simp only [Bool.and_eq_true, beq_iff_eq, ih, List.cons_append, List.cons.injEq]
      constructor
      · rintro ⟨rfl, t, rfl⟩
        exact ⟨t, rfl, rfl⟩
      · rintro ⟨t, rfl, rfl⟩
        exact ⟨rfl, t, rfl⟩

theorem replaceFirstL_not_contains (pat repl s : List Char)
    (h : containsSeq pat s = false) : replaceFirstL pat repl s = s := by
  induction s with
  | nil =>
    cases hp : pat with
    | nil => rw [hp] at h; exact absurd h (by decide)
    | cons p ps =>
      rw [replaceFirstL.eq_def]
      simp [hp]
  | cons c cs ih =>
    simp only [containsSeq, Bool.or_eq_false_iff] at h
    simp [replaceFirstL, h.1, ih h.2]

theorem replaceFirstL_spec (pat repl s : List Char) (hne : pat ≠ [])
    (h : containsSeq pat s = true) :
    ∃ pre post, s = pre ++ pat ++ post ∧
      replaceFirstL pat repl s = pre ++ repl ++ post ∧
      (∀ pre' post', s = pre' ++ pat ++ post' → pre.length ≤ pre'.length) := by
  induction s with
  | nil =>
    exfalso
    simp only [containsSeq] at h
    rcases (startsWithSeq_iff pat []).mp h with ⟨t, ht⟩
    exact hne (by cases pat with
      | nil => rfl
      | cons p ps => simp at ht)
  | cons c cs ih =>
    by_cases hs : startsWithSeq pat (c :: cs) = true
    · rcases (startsWithSeq_iff pat (c :: cs)).mp hs with ⟨t, ht⟩
      refine ⟨[], t, ?_, ?_, ?_⟩
      · simpa using ht
      · rw [replaceFirstL, if_pos hs, ht, List.drop_left]
        simp
      · intro pre' post' _
        simp
    · have h2 : containsSeq pat cs = true := by
        simp only [containsSeq, Bool.or_eq_true] at h
        rcases h with h | h
        · exact absurd h hs
        · exact h
      rcases ih h2 with ⟨pre, post, hsplit, hrepl, hmin⟩
      refine ⟨c :: pre, post, ?_, ?_, ?_⟩
      · simp [hsplit]
      · rw [replaceFirstL, if_neg (by simpa using hs), hrepl]
        simp
      · intro pre' post' hsp
        cases pre' with
        | nil =>
          exfalso
          apply hs
          rw [startsWithSeq_iff]
          simp only [List.nil_append] at hsp
          exact ⟨post', hsp⟩
        | cons d ds =>
          simp only [List.cons_append, List.cons.injEq] at hsp
          have := hmin ds post' hsp.2
          simp only [List.length_cons]
          omega

/-! ## Request-time oracles and effectful primitives

External behavior a request observes: `Date` parsing/formatting, the clock,
and the upstream fetch results.  `fetchTeamSnapData`'s internal token-refresh
retries are abstracted into the oracle results (`teamNameFetch`,
`locationFetch`); this does not affect the claims, which only constrain the
traced effects of paths that perform no enrichment fetch.  Effect traces on
thrown paths are not guaranteed faithful (no claim inspects them). -/

/-- A successful token-endpoint response body (`tokenData` in the source). -/
structure RefreshData where
  access_token : String
  refresh_token : Option String
  expires_in : Int
  deriving DecidableEq, Repr

structure Ctx where
  /-- `new Date(s).getTime()`; `none` models `NaN` (an invalid date). -/
  parseDate : String → Option Int
  /-- `date.toISOString().replace(...)` on a valid date (`formatDate`). -/
  fmtDate : Int → String
  /-- `new Date(v).toLocaleTimeString('en-US', opts)`; second argument is
  the `timeZone` option, present only when the event has a truthy
  `time_zone_iana_name`. -/
  localeTime : JSVal → Option JSVal → String
  /-- `Date.now()` during this request (single-instant model). -/
  now : Int
  /-- Net result of the team-name enrichment fetch (lines 103-111):
  the `name` field of the team, or `none` when the fetch failed. -/
  teamNameFetch : Option String
  /-- The primary event fetch (lines 113-139): `none` models a non-success
  response or a network error (→ 500), `some evs` the fetched items. -/
  eventsFetch : Option (List RawEvent)
  /-- The per-event location enrichment fetch (lines 287-309): `none`
  models failure / null / an empty collection. -/
  locationFetch : String → Option (List (String × JSVal))
  /-- The token-endpoint exchange in `refreshAccessToken`: `none` models a
  non-success response or a network error. -/
  refreshResult : Option RefreshData

/-- `new Date(v).getTime()` for a field value: strings go through date
parsing, numbers are epoch millis, `null` is epoch 0; `none` is `NaN`. -/
def dateVal (ctx : Ctx) : JSVal → Option Int
  | .vstr s => ctx.parseDate s
  | .vnum n => some n
  | .vbool b => some (if b then 1 else 0)
  | .vnull => some 0
  | .vundefined => none

/-- JS `parseInt(s)` restricted to optional sign plus leading digits
(leading whitespace not modelled); `none` models `NaN`. -/
def jsParseInt (s : String) : Option Int :=
  match s.data with
  | '-' :: rest => (parseDigits rest).map fun p => -(p.1 : Int)
  | '+' :: rest => (parseDigits rest).map fun p => (p.1 : Int)
  | l => (parseDigits l).map fun p => (p.1 : Int)

/-- `refreshAccessToken(env)` (lines 505-552): reads the stored refresh
token; on a successful exchange stores the new access token, the rotated
refresh token (if any) and the absolute expiry, and returns the token data;
returns `null` without writes on a missing refresh token, a non-success
response, or a network error. -/
def refreshAccessToken (ctx : Ctx) (st : Store) : Option RefreshData × Store × List Eff :=
  match storeGet st "oauth_refresh_token" with
  | none => (none, st, [])
  | some rt =>
    if rt = "" then (none, st, [])
    else
      match ctx.refreshResult with
      | none => (none, st, [Eff.fetchRefresh])
      | some td =>
        let st1 := storePut st "oauth_access_token" td.access_token
        let e1 := [Eff.fetchRefresh, Eff.putK "oauth_access_token" td.access_token]
        let strefresh :=
          match td.refresh_token with
          | some r =>
            if r = "" then (st1, e1)
            else (storePut st1 "oauth_refresh_token" r,
                  e1 ++ [Eff.putK "oauth_refresh_token" r])
          | none => (st1, e1)
        let expiresAt := ctx.now + td.expires_in * 1000
        (some td,
         storePut strefresh.1 "oauth_expires_at" (intDec expiresAt),
         strefresh.2 ++ [Eff.putK "oauth_expires_at" (intDec expiresAt)])

/-! ## Title synthesis (`src/index.js` lines 326-349 and 419-460) -/

/-- `generateEventTitleSync(event, customTeamName, actualTeamName,
removeOpponentNames)` (lines 433-460).  The result is a JS value: when the
original title is taken over unchanged it may be a non-string; calling
`.replace` on a non-string throws (`Except.error`). -/
def generateEventTitleSync (ev : RawEvent) (customTeamName : Option String)
    (actualTeamName : Option String) (removeOpponentNames : Bool) : Except Unit JSVal :=
  let teamName := strOr customTeamName (strOr actualTeamName "Team")
  let originalTitle := jsOr (lastVal ev "formatted_title_for_multi_team")
    (jsOr (lastVal ev "formatted_title") (jsOr (lastVal ev "name") (.vstr "Untitled Event")))
  let isGame := (lastVal ev "game_type" == JSVal.vstr "Game")
    || jsTruthy (lastVal ev "opponent_name")
  if isGame && jsTruthy (lastVal ev "opponent_name") then
    if removeOpponentNames then .ok (.vstr (teamName ++ ": Game"))
    else .ok (.vstr (teamName ++ " vs. " ++ jsToString (lastVal ev "opponent_name")))
  else if isGame then
    match actualTeamName, customTeamName with
    | some a, some c =>
      if a ≠ "" ∧ c ≠ "" then
        match originalTitle with
        | .vstr t => .ok (.vstr ⟨replaceAllCIL a.data c.data t.data⟩)
        | _ => .error ()
      else .ok originalTitle
    | _, _ => .ok originalTitle
  else
    match actualTeamName, customTeamName with
    | some a, some c =>
      if a ≠ "" ∧ c ≠ "" then
        match originalTitle with
        | .vstr t => .ok (.vstr ⟨replaceAllCIL a.data c.data t.data⟩)
        | _ => .error ()
      else .ok originalTitle
    | _, _ => .ok originalTitle

/-- `generateEventTitle(eventData, teamId, env, actualTeamName)`
(lines 419-423): reads the per-team preferences and delegates. -/
def generateEventTitle (st : Store) (teamId : String) (actualTeamName : Option String)
    (ev : RawEvent) : Except Unit JSVal :=
  let customName := storeGet st ("custom_team_name_" ++ teamId)
  let removeOpponentNames := storeGet st ("remove_opponent_names_" ++ teamId)
  generateEventTitleSync ev customName actualTeamName (removeOpponentNames == some "true")

/-- The non-game title computation inlined in `serveCalendar`
(lines 331-348): `formatted_title` with a team prefix, else the multi-team
title with the first (case-sensitive) occurrence of the upstream name
replaced by the custom name, else `label || name || 'Event'`. -/
def nonGameTitle (st : Store) (teamId : String) (actualTeamName : Option String)
    (ev : RawEvent) : Except Unit JSVal :=
  if jsTruthy (lastVal ev "formatted_title") then
    let customTeamName := storeGet st ("custom_team_name_" ++ teamId)
    let teamName := strOr customTeamName (strOr actualTeamName "Team")
    .ok (.vstr (teamName ++ ": " ++ jsToString (lastVal ev "formatted_title")))
  else if jsTruthy (lastVal ev "formatted_title_for_multi_team") then
    let customTitle := lastVal ev "formatted_title_for_multi_team"
    let customTeamName := storeGet st ("custom_team_name_" ++ teamId)
    match actualTeamName, customTeamName with
    | some a, some c =>
      if a ≠ "" ∧ c ≠ "" then
        match customTitle with
        | .vstr t =>
          if containsSeq a.data t.data then .ok (.vstr ⟨replaceFirstL a.data c.data t.data⟩)
          else .ok (.vstr t)
        | _ => .error ()
      else .ok customTitle
    | _, _ => .ok customTitle
  else
    .ok (jsOr (lastVal ev "label") (jsOr (lastVal ev "name") (.vstr "Event")))

/-! ## Description synthesis and ICS rendering (lines 186-387) -/

/-- `generateEventDescription(event)` (lines 221-265).  The template
literals in the source write `\\n` — a literal backslash followed by `n`,
not a newline; the Lean string literals below are the same two characters. -/
def generateEventDescription (ctx : Ctx) (ev : RawEvent) : String :=
  let desc := ""
  let desc :=
    if jsTruthy (lastVal ev "is_game") && jsTruthy (lastVal ev "opponent_name") then
      if lastVal ev "game_type" = JSVal.vstr "Home" then
        desc ++ "Home vs. " ++ jsToString (lastVal ev "opponent_name") ++ "\\n"
      else if lastVal ev "game_type" = JSVal.vstr "Away" then
        desc ++ "Away at " ++ jsToString (lastVal ev "opponent_name") ++ "\\n"
      else
        desc ++ jsToString (jsOr (lastVal ev "label") (JSVal.vstr "TBD")) ++ " vs. "
          ++ jsToString (lastVal ev "opponent_name") ++ "\\n"
    else desc
  let desc :=
    if jsTruthy (lastVal ev "uniform") then
      desc ++ "Uniform: " ++ jsToString (lastVal ev "uniform") ++ "\\n"
    else desc
  let desc :=
    if jsTruthy (lastVal ev "location_name") then
      let d1 := desc ++ "\\n" ++ jsToString (lastVal ev "location_name")
      let d2 :=
        if jsTruthy (lastVal ev "additional_location_details")
            && !(lastVal ev "additional_location_details" == JSVal.vstr "TBD") then
          d1 ++ "\\n" ++ jsToString (lastVal ev "additional_location_details")
        else d1
      d2 ++ "\\n"
    else desc
  let desc :=
    if jsTruthy (lastVal ev "is_game") && jsTruthy (lastVal ev "arrival_date")
        && jsTruthy (lastVal ev "minutes_to_arrive_early") then
      desc ++ "Arrival: "
        ++ ctx.localeTime (lastVal ev "arrival_date")
            (if jsTruthy (lastVal ev "time_zone_iana_name")
             then some (lastVal ev "time_zone_iana_name") else none)
        ++ " · " ++ jsToString (lastVal ev "minutes_to_arrive_early") ++ " min. early\\n"
    else desc
  let desc :=
    if jsTruthy (lastVal ev "notes") then
      desc ++ "\\n" ++ jsToString (lastVal ev "notes") ++ "\\n"
    else desc
  desc

/-- One content line of the rendered ICS document (`NAME:value` + CRLF). -/
structure IcsLine where
  name : String
  value : String
  deriving DecidableEq, Repr

/-- Serialize the lines exactly as the source concatenates them. -/
def flattenLines (lines : List IcsLine) : String :=
  lines.foldl (fun acc l => acc ++ l.name ++ ":" ++ l.value ++ "\r\n") ""

/-- Line 271: `eventData.updated_at ? new Date(eventData.updated_at) : new
Date()`; a truthy but unparseable value later throws in `toISOString`. -/
def updatedAtMs (ctx : Ctx) (ev : RawEvent) : Except Unit Int :=
  if jsTruthy (lastVal ev "updated_at") then
    match dateVal ctx (lastVal ev "updated_at") with
    | some t => .ok t
    | none => .error ()
  else .ok ctx.now

/-- `generateEventFromTemplate(eventData, customTitle, formatDate)`
(lines 267-324), producing the `VEVENT` block lines and the enrichment-fetch
effects.  Throws (`Except.error`) when `customTitle` is not a string
(`.replace` on a non-string) or when a truthy `updated_at` is unparseable
(`toISOString` on an invalid date). -/
def generateEventFromTemplate (ctx : Ctx) (teamId : String) (ev : RawEvent)
    (customTitle : JSVal) (startMs endMs : Int) : Except Unit (List IcsLine × List Eff) :=
  let description := generateEventDescription ctx ev
  let description := escCommas (escNewlines description)
  match customTitle with
  | .vstr title =>
    match updatedAtMs ctx ev with
    | .error _ => .error ()
    | .ok updMs =>
      let locBlock : List IcsLine × List Eff :=
        if jsTruthy (lastVal ev "location_name") then
          let locationText := jsToString (lastVal ev "location_name")
          let fetched : String × List Eff :=
            if jsTruthy (lastVal ev "location_id") then
              let lid := jsToString (lastVal ev "location_id")
              match ctx.locationFetch lid with
              | some fields =>
                let loc := RawEvent.mk fields
                let addressParts :=
                  (if jsTruthy (lastVal loc "address")
                   then [jsToString (lastVal loc "address")] else []) ++
                  (if jsTruthy (lastVal loc "city")
                   then [jsToString (lastVal loc "city")] else []) ++
                  (if jsTruthy (lastVal loc "state")
                   then [jsToString (lastVal loc "state")] else []) ++
                  (if jsTruthy (lastVal loc "postal_code")
                   then [jsToString (lastVal loc "postal_code")] else [])
                if addressParts ≠ [] then
                  (locationText ++ "\\n" ++ String.intercalate " " addressParts,
                   [Eff.fetchLocation lid])
                else (locationText, [Eff.fetchLocation lid])
              | none => (locationText, [Eff.fetchLocation lid])
            else (locationText, [])
          ([IcsLine.mk "LOCATION" (escCommas fetched.1)], fetched.2)
        else ([], [])
      .ok
        ([IcsLine.mk "BEGIN" "VEVENT",
          IcsLine.mk "UID" ("teamsnap-" ++ jsToString (lastVal ev "id") ++ "@teamsnap.com"),
          IcsLine.mk "DTSTART" (ctx.fmtDate startMs),
          IcsLine.mk "DTEND" (ctx.fmtDate endMs),
          IcsLine.mk "SUMMARY" (escCommas title)] ++
         (if description ≠ "" then [IcsLine.mk "DESCRIPTION" description] else []) ++
         locBlock.1 ++
         [IcsLine.mk "URL" ("https://go.teamsnap.com/" ++ teamId ++ "/schedule/view_event/"
            ++ jsToString (lastVal ev "id")),
          IcsLine.mk "LAST-MODIFIED" (ctx.fmtDate updMs),
          IcsLine.mk "DTSTAMP" (ctx.fmtDate ctx.now),
          IcsLine.mk "END" "VEVENT"],
         locBlock.2)
  | _ => .error ()

/-- The per-event loop of `serveCalendar` (lines 202-353): events without a
truthy `start_date` are skipped; unparseable start/end dates throw
(`toISOString`); titles are synthesized per the game / non-game branches. -/
def renderEvents (ctx : Ctx) (st : Store) (teamId : String)
    (actualTeamName : Option String) : List RawEvent → Except Unit (List IcsLine × List Eff)
  | [] => .ok ([], [])
  | ev :: rest =>
    let startTime := lastVal ev "start_date"
    if jsTruthy startTime then
      match dateVal ctx startTime with
      | none => .error ()
      | some startMs =>
        let endTime := lastVal ev "end_date"
        let endRes : Except Unit Int :=
          if jsTruthy endTime then
            match dateVal ctx endTime with
            | some e => .ok e
            | none => .error ()
          else .ok (startMs + 7200000)
        match endRes with
        | .error _ => .error ()
        | .ok endMs =>
          let titleRes :=
            if jsTruthy (lastVal ev "is_game") then
              generateEventTitle st teamId actualTeamName ev
            else nonGameTitle st teamId actualTeamName ev
          match titleRes with
          | .error _ => .error ()
          | .ok customTitle =>
            match generateEventFromTemplate ctx teamId ev customTitle startMs endMs with
            | .error _ => .error ()
            | .ok blk =>
              match renderEvents ctx st teamId actualTeamName rest with
              | .error _ => .error ()
              | .ok tl => .ok (blk.1 ++ tl.1, blk.2 ++ tl.2)
    else renderEvents ctx st teamId actualTeamName rest

/-- The whole document (lines 190-200, 202-353, 355): header block, an
`X-WR-CALNAME` line when the calendar name is truthy, the event blocks, and
the footer. -/
def renderCalendar (ctx : Ctx) (st : Store) (teamId : String) (calendarName : String)
    (actualTeamName : Option String) (events : List RawEvent) :
    Except Unit (List IcsLine × List Eff) :=
  let header :=
    [IcsLine.mk "BEGIN" "VCALENDAR",
     IcsLine.mk "VERSION" "2.0",
     IcsLine.mk "PRODID" "-//TeamSnap Custom Calendar//TeamSnap Events//EN",
     IcsLine.mk "CALSCALE" "GREGORIAN",
     IcsLine.mk "METHOD" "PUBLISH"] ++
    (if calendarName ≠ "" then [IcsLine.mk "X-WR-CALNAME" calendarName] else [])
  match renderEvents ctx st teamId actualTeamName events with
  | .error _ => .error ()
  | .ok evBlock => .ok (header ++ evBlock.1 ++ [IcsLine.mk "END" "VCALENDAR"], evBlock.2)

/-! ## Token registry (lines 389-409, 747-760) -/

/-- `parseCalendarToken(token, env)` (lines 406-409): store lookup under
`calendar_token:{token}`; a missing or empty (falsy) value yields `null`
(`.ok none`); a present value goes through `JSON.parse`, whose failure
throws (`.error`). -/
def parseCalendarToken (st : Store) (token : String) : Except Unit (Option JVal) :=
  match storeGet st ("calendar_token:" ++ token) with
  | none => .ok none
  | some m =>
    if m = "" then .ok none
    else
      match jsonParse m with
      | none => .error ()
      | some v => .ok (some v)

/-- `generateCalendarToken(teamId, filterType, env, teamName)`
(lines 392-401): SHA-256 hex digest of `teamName:filterType:secret`
truncated to 32 characters.  The digest itself is an oracle parameter
`sha256hex`; `teamId` is accepted and ignored exactly as in the source. -/
def generateCalendarToken (sha256hex : String → String) (teamId : String)
    (filterType : String) (clientSecret : Option String) (teamName : String) : String :=
  let secret := strOr clientSecret "fallback-salt"
  let data := teamName ++ ":" ++ filterType ++ ":" ++ secret
  ⟨(sha256hex data).data.take 32⟩

/-- The issue step of `handleTeamsApi` (lines 747-760): compute the token
and overwrite the registry mapping with
`JSON.stringify({teamId, filterType})` (teamId modelled as its string
form). -/
def issueCalendarToken (sha256hex : String → String) (clientSecret : Option String)
    (st : Store) (teamId teamName filterType : String) : String × Store :=
  let tok := generateCalendarToken sha256hex teamId filterType clientSecret teamName
  (tok, storePut st ("calendar_token:" ++ tok) (stringifyTokenMapping teamId filterType))

/-! ## Event filtering and the cache watermark (lines 141-168) -/

/-- Lines 143-147: drop events whose `is_canceled` is truthy. -/
def dropCancelled (events : List RawEvent) : List RawEvent :=
  events.filter fun ev => ! jsTruthy (findVal ev "is_canceled")

/-- Is the resolved `filterType` strictly equal to `'games'`? -/
def isGamesFilter : Option JVal → Bool
  | some (.jstr s) => s == "games"
  | _ => false

/-- Lines 149-156: under the `games` filter keep events whose `game_type`
is `'Game'` or whose `opponent_name` is truthy; otherwise a no-op. -/
def applyFilter (ft : Option JVal) (events : List RawEvent) : List RawEvent :=
  if isGamesFilter ft then
    events.filter fun ev =>
      (findVal ev "game_type" == JSVal.vstr "Game") || jsTruthy (findVal ev "opponent_name")
  else events

/-- Lines 158-168: the maximum parsed `updated_at` over the events, starting
from 0; untruthy or unparseable values contribute nothing. -/
def latestUpdate (ctx : Ctx) (events : List RawEvent) : Int :=
  events.foldl
    (fun acc ev =>
      let u := findVal ev "updated_at"
      if jsTruthy u then
        match dateVal ctx u with
        | some t => if t > acc then t else acc
        | none => acc
      else acc)
    0

/-! ## The feed response (`serveCalendar`, lines 21-387)

The HTTP response is modelled structurally: status, body, and the
`Last-Modified` (as the epoch-millisecond instant the header formats),
`ETag`, `Content-Type` and `Content-Disposition` header values.
`Cache-Control` is the constant `public, max-age=3600` on every
header-carrying path and is not modelled. -/

structure Resp where
  status : Nat
  body : Option String
  lastModified : Option Int
  etag : Option String
  contentType : Option String
  contentDisposition : Option String
  deriving DecidableEq, Repr

/-- The request-dependent inputs of `serveCalendar`: the raw query
parameters and conditional headers. -/
structure Req where
  cacheParam : Option String
  refreshParam : Option String
  formatParam : Option String
  ims : Option String
  inm : Option String
  deriving DecidableEq, Repr

/-- A finished request: a response with the final store and effect trace, or
an exception that escaped `serveCalendar`. -/
inductive Outcome where
  | ok : Resp → Store → List Eff → Outcome
  | thrown : Store → List Eff → Outcome
  deriving DecidableEq, Repr

def invalidTokenResp : Resp :=
  { status := 400, body := some "Invalid or expired calendar token.",
    lastModified := none, etag := none, contentType := none, contentDisposition := none }

def authExpiredResp : Resp :=
  { status := 401, body := some "Calendar access expired. Please re-authenticate.",
    lastModified := none, etag := none, contentType := none, contentDisposition := none }

def eventsErrorResp : Resp :=
  { status := 500, body := some "Failed to fetch team events",
    lastModified := none, etag := none, contentType := none, contentDisposition := none }

/-- `"{calendarId}-{watermark}"` in quotes (lines 60, 173, 364). -/
def etagOf (calendarId wm : String) : String := "\"" ++ calendarId ++ "-" ++ wm ++ "\""

def cacheKeyOf (calendarId : String) : String := "calendar_" ++ calendarId

def lastUpdateKeyOf (calendarId : String) : String := cacheKeyOf calendarId ++ "_lastupdate"

/-- Lines 186-387: read the custom calendar name, render the document, cache
it when the watermark is positive, and answer 200 with headers from the
watermark — or from `Date.now()` when the watermark is 0. -/
def sc_gen (ctx : Ctx) (req : Req) (calendarId : String) (forceText : Bool)
    (teamId : String) (filterTypeStr : String) (actualTeamName : Option String)
    (events : List RawEvent) (latest : Int) (st : Store) (effs : List Eff) : Outcome :=
  let customTeamName := storeGet st ("custom_team_name_" ++ teamId)
  let calendarName := strOr customTeamName (strOr actualTeamName "")
  match renderCalendar ctx st teamId calendarName actualTeamName events with
  | .error _ => .thrown st effs
  | .ok rendered =>
    let icsContent := flattenLines rendered.1
    let cached :=
      if latest > 0 then
        (storePut (storePut st (cacheKeyOf calendarId) icsContent)
          (lastUpdateKeyOf calendarId) (intDec latest),
         effs ++ rendered.2 ++
           [Eff.putK (cacheKeyOf calendarId) icsContent,
            Eff.putK (lastUpdateKeyOf calendarId) (intDec latest)])
      else (st, effs ++ rendered.2)
    let lmMs := if latest = 0 then ctx.now else latest
    let wmStr := if latest = 0 then intDec ctx.now else intDec latest
    let formatAsText := forceText || req.formatParam == some "text"
    Outcome.ok
      { status := 200, body := some icsContent,
        lastModified := some lmMs, etag := some (etagOf calendarId wmStr),
        contentType := some (if formatAsText then "text/plain; charset=utf-8"
          else "text/calendar; charset=utf-8"),
        contentDisposition := some (if formatAsText then "inline"
          else "attachment; filename=\"" ++ teamId ++ "_" ++ filterTypeStr ++ ".ics\"") }
      cached.1 cached.2

/-- Lines 141-184: filter, compute the watermark, and serve the cached body
when it is still fresh (`CACHE_FRESH`), else render (`sc_gen`). -/
def sc_fetched (ctx : Ctx) (req : Req) (calendarId : String) (forceText : Bool)
    (teamId : String) (filterTypeV : Option JVal) (filterTypeStr : String)
    (actualTeamName : Option String) (events0 : List RawEvent)
    (cachedIcs cachedLastUpdate : Option String) (st : Store) (effs : List Eff) : Outcome :=
  let events1 := dropCancelled events0
  let events2 := applyFilter filterTypeV events1
  let latest := latestUpdate ctx events2
  let fresh : Bool :=
    optTruthy cachedIcs && optTruthy cachedLastUpdate &&
      (match jsParseInt (cachedLastUpdate.getD "") with
       | some p => decide (latest ≤ p)
       | none => false)
  if fresh then
    Outcome.ok
      { status := 200, body := cachedIcs,
        lastModified := jsParseInt (cachedLastUpdate.getD ""),
        etag := some (etagOf calendarId (cachedLastUpdate.getD "")),
        contentType := some "text/calendar; charset=utf-8",
        contentDisposition := some ("attachment; filename=\"" ++ teamId ++ "_"
          ++ filterTypeStr ++ ".ics\"") }
      st effs
  else
    sc_gen ctx req calendarId forceText teamId filterTypeStr actualTeamName events2 latest st effs

/-- Lines 102-139: the team-name enrichment fetch and the primary event
fetch (non-success or network error → 500). -/
def sc_team (ctx : Ctx) (req : Req) (calendarId : String) (forceText : Bool)
    (teamId : String) (filterTypeV : Option JVal) (filterTypeStr : String)
    (cachedIcs cachedLastUpdate : Option String) (st : Store) (effs : List Eff) : Outcome :=
  let actualTeamName := ctx.teamNameFetch
  let effs := effs ++ [Eff.fetchTeam]
  match ctx.eventsFetch with
  | none => Outcome.ok eventsErrorResp st (effs ++ [Eff.fetchEvents])
  | some events0 =>
    sc_fetched ctx req calendarId forceText teamId filterTypeV filterTypeStr actualTeamName
      events0 cachedIcs cachedLastUpdate st (effs ++ [Eff.fetchEvents])

/-- Lines 90-100: use the stored access token, else refresh once; a failed
refresh answers 401. -/
def sc_auth (ctx : Ctx) (req : Req) (calendarId : String) (forceText : Bool)
    (teamId : String) (filterTypeV : Option JVal) (filterTypeStr : String)
    (cachedIcs cachedLastUpdate : Option String) (st : Store) (effs : List Eff) : Outcome :=
  let accessToken := storeGet st "oauth_access_token"
  if optTruthy accessToken then
    sc_team ctx req calendarId forceText teamId filterTypeV filterTypeStr
      cachedIcs cachedLastUpdate st effs
  else
    match refreshAccessToken ctx st with
    | (some _, st1, rEffs) =>
      sc_team ctx req calendarId forceText teamId filterTypeV filterTypeStr
        cachedIcs cachedLastUpdate st1 (effs ++ rEffs)
    | (none, st1, rEffs) => Outcome.ok authExpiredResp st1 (effs ++ rEffs)

/-- Lines 57-88: conditional-request handling against the cached pair —
`If-Modified-Since` at-or-after the cached watermark, or `If-None-Match`
equal to the cached ETag, answer `304` with no body and no further work. -/
def sc_cond (ctx : Ctx) (req : Req) (calendarId : String) (forceText : Bool)
    (teamId : String) (filterTypeV : Option JVal) (filterTypeStr : String)
    (cachedIcs cachedLastUpdate : Option String) (st : Store) (effs : List Eff) : Outcome :=
  if optTruthy cachedIcs && optTruthy cachedLastUpdate then
    let w := cachedLastUpdate.getD ""
    let lastModifiedMs := jsParseInt w
    let etag := etagOf calendarId w
    let ims304 : Bool :=
      match req.ims with
      | some s =>
        if s = "" then false
        else
          match lastModifiedMs, ctx.parseDate s with
          | some a, some b => decide (a ≤ b)
          | _, _ => false
      | none => false
    let inm304 : Bool :=
      match req.inm with
      | some s => if s = "" then false else s == etag
      | none => false
    if ims304 || inm304 then
      Outcome.ok
        { status := 304, body := none, lastModified := lastModifiedMs,
          etag := some etag, contentType := none, contentDisposition := none }
        st effs
    else
      sc_auth ctx req calendarId forceText teamId filterTypeV filterTypeStr
        cachedIcs cachedLastUpdate st effs
  else
    sc_auth ctx req calendarId forceText teamId filterTypeV filterTypeStr
      cachedIcs cachedLastUpdate st effs

/-- `serveCalendar(request, env, calendarId, forceText)` (lines 21-387):
token resolution, cache reads and bypass flags, then the conditional /
auth / fetch / cache-fresh / render pipeline. -/
def serveCalendar (ctx : Ctx) (st : Store) (req : Req) (calendarId : String)
    (forceText : Bool) : Outcome :=
  match parseCalendarToken st calendarId with
  | .error _ => Outcome.thrown st []
  | .ok none => Outcome.ok invalidTokenResp st []
  | .ok (some tokenData) =>
    if jvTruthy tokenData then
      let teamId := jvPropToString tokenData "teamId"
      let filterTypeV := jvProp tokenData "filterType"
      let filterTypeStr := jvPropToString tokenData "filterType"
      let cacheOff := req.cacheParam == some "off"
      let forceRefresh := req.refreshParam == some "true"
      let cachedIcs := if cacheOff || forceRefresh then none
        else storeGet st (cacheKeyOf calendarId)
      let cachedLastUpdate := if cacheOff || forceRefresh then none
        else storeGet st (lastUpdateKeyOf calendarId)
      let st1 := if forceRefresh then
          storeDelete (storeDelete st (cacheKeyOf calendarId)) (lastUpdateKeyOf calendarId)
        else st
      let effs1 := if forceRefresh then
          [Eff.delK (cacheKeyOf calendarId), Eff.delK (lastUpdateKeyOf calendarId)]
        else []
      sc_cond ctx req calendarId forceText teamId filterTypeV filterTypeStr
        cachedIcs cachedLastUpdate st1 effs1
    else Outcome.ok invalidTokenResp st []

/-! ## Fixtures for concrete instantiations -/

/-- A concrete oracle fixture used by witnesses and counterexamples. -/
def ctxFix : Ctx :=
  { parseDate := fun _ => none, fmtDate := fun _ => "20250101T000000Z",
    localeTime := fun _ _ => "5:20 PM", now := 5,
    teamNameFetch := none, eventsFetch := some [], locationFetch := fun _ => none,
    refreshResult := none }

/-- A request with no query parameters and no conditional headers. -/
def reqFix : Req := { cacheParam := none, refreshParam := none, formatParam := none,
                      ims := none, inm := none }

/-- The lines of a successful render (`[]` for a throw); used to state
membership facts about rendered documents. -/
def linesOfOk : Except Unit (List IcsLine × List Eff) → List IcsLine
  | .ok p => p.1
  | .error _ => []

/-! ## C5 — filter correctness -/

/-- C5: with `A = {game_type: "Game", opponent_name: "X"}`,
`B = {is_game: false}`, `C = {is_canceled: true}`, dropping cancelled events
and filtering with `"games"` yields exactly `[A]`, and with `"all"` yields
exactly `[A, B]`; `C` is excluded under both filter types. -/
theorem claim_C5_filter_correctness :
    applyFilter (some (JVal.jstr "games"))
        (dropCancelled
          [RawEvent.mk [("game_type", JSVal.vstr "Game"), ("opponent_name", JSVal.vstr "X")],
           RawEvent.mk [("is_game", JSVal.vbool false)],
           RawEvent.mk [("is_canceled", JSVal.vbool true)]])
      = [RawEvent.mk [("game_type", JSVal.vstr "Game"), ("opponent_name", JSVal.vstr "X")]]
    ∧ applyFilter (some (JVal.jstr "all"))
        (dropCancelled
          [RawEvent.mk [("game_type", JSVal.vstr "Game"), ("opponent_name", JSVal.vstr "X")],
           RawEvent.mk [("is_game", JSVal.vbool false)],
           RawEvent.mk [("is_canceled", JSVal.vbool true)]])
      = [RawEvent.mk [("game_type", JSVal.vstr "Game"), ("opponent_name", JSVal.vstr "X")],
         RawEvent.mk [("is_game", JSVal.vbool false)]] := by
  constructor <;> rfl

/-! ## C8 — refresh failure leaves the store untouched -/

/-- C8: when the token endpoint answers with a non-success response or the
request fails (`refreshResult = none`), `refreshAccessToken` returns `null`
and performs no store write: the resulting store — in particular the stored
access token, refresh token and expiry — is exactly the input store. -/
theorem claim_C8_refresh_atomic (ctx : Ctx) (st : Store)
    (hfail : ctx.refreshResult = none) :
    (refreshAccessToken ctx st).1 = none ∧ (refreshAccessToken ctx st).2.1 = st := by
  unfold refreshAccessToken
  cases hrt : storeGet st "oauth_refresh_token" with
  | none => exact ⟨rfl, rfl⟩
  | some rt =>
    by_cases hr : rt = ""
    · simp [hr]
    · simp [hr, hfail]

theorem claim_C8_refresh_atomic_witness :
    ctxFix.refreshResult = none
    ∧ (refreshAccessToken ctxFix [("oauth_refresh_token", "rtok")]).1 = none
    ∧ (refreshAccessToken ctxFix [("oauth_refresh_token", "rtok")]).2.1
        = [("oauth_refresh_token", "rtok")] := by
  refine ⟨rfl, ?_⟩
  exact claim_C8_refresh_atomic ctxFix [("oauth_refresh_token", "rtok")] rfl

/-! ## C9 — the synthesizer pre-escapes its line breaks -/

/-- C9 counterexample: for a Home game against `X`, the synthesized
description is the eleven characters `Home vs. X` followed by backslash and
`n` — a pre-escaped two-character sequence — and contains no literal newline
character at all, contradicting "returns line breaks as literal newline
characters, not pre-escaped backslash-n sequences". -/
theorem claim_C9_counterexample :
    generateEventDescription ctxFix
        (RawEvent.mk [("is_game", JSVal.vbool true), ("opponent_name", JSVal.vstr "X"),
                      ("game_type", JSVal.vstr "Home")])
      = "Home vs. X\\n"
    ∧ ('\n' ∉ ("Home vs. X\\n" : String).data)
    ∧ containsSeq ['\\', 'n'] ("Home vs. X\\n" : String).data = true := by
  refine ⟨rfl, by decide, by decide⟩

theorem noNewline_lastVal (ev : RawEvent)
    (h : ∀ p ∈ ev.data, '\n' ∉ (jsToString p.2).data) (n : String) :
    '\n' ∉ (jsToString (lastVal ev n)).data := by
  unfold lastVal
  cases hf : ev.data.reverse.find? (fun p => p.1 == n) with
  | none => decide
  | some p =>
    have hmem : p ∈ ev.data.reverse := List.mem_of_find?_eq_some hf
    exact h p (List.mem_reverse.mp hmem)

theorem containsSeq_append_left (pat a b : List Char)
    (h : containsSeq pat a = true) : containsSeq pat (a ++ b) = true := by
  induction a with
  | nil =>
    have hp : pat = [] := by
      cases hp : pat with
      | nil => rfl
      | cons p ps =>
        rw [hp] at h
        rw [containsSeq.eq_def, startsWithSeq.eq_def] at h
        simp at h
    subst hp
    cases b with
    | nil => exact h
    | cons c cs => rfl
  | cons c cs ih =>
    rw [List.cons_append, containsSeq.eq_def]
    rw [containsSeq.eq_def] at h
    simp only [Bool.or_eq_true] at h ⊢
    rcases h with h | h
    · left
      rcases (startsWithSeq_iff pat (c :: cs)).mp h with ⟨t, ht⟩
      rw [startsWithSeq_iff]
      refine ⟨t ++ b, ?_⟩
      have : (c :: cs) ++ b = (pat ++ t) ++ b := by rw [← ht]
      simpa [List.append_assoc] using this
    · right
      exact ih h

theorem containsSeq_append_right (pat a b : List Char)
    (h : containsSeq pat b = true) : containsSeq pat (a ++ b) = true := by
  induction a with
  | nil => simpa using h
  | cons c cs ih =>
    rw [List.cons_append, containsSeq.eq_def]
    simp only [Bool.or_eq_true]
    right
    exact ih

theorem noNL_append (a b : String) (ha : '\n' ∉ a.data) (hb : '\n' ∉ b.data) :
    '\n' ∉ (a ++ b).data := by
  rw [String.data_append]
  intro hmem
  rcases List.mem_append.mp hmem with h | h
  · exact ha h
  · exact hb h

set_option maxHeartbeats 2000000 in
/-- C9 amended: `generateEventDescription` emits its own line breaks as the
pre-escaped two-character sequence `\n`, never as a literal newline: when
every field value and every localized time is newline-free, the synthesized
description contains no literal newline character, and for a game with an
opponent it does contain the two-character sequence `\` `n`.  The later
central escaping step (`generateEventFromTemplate`, line 269) is the single
place where commas and any raw newlines arriving inside field values are
escaped. -/
theorem claim_C9_amended (ctx : Ctx) (ev : RawEvent)
    (hfields : ∀ p ∈ ev.data, '\n' ∉ (jsToString p.2).data)
    (hlocale : ∀ a tz, '\n' ∉ (ctx.localeTime a tz).data) :
    '\n' ∉ (generateEventDescription ctx ev).data
    ∧ (jsTruthy (lastVal ev "is_game") = true →
       jsTruthy (lastVal ev "opponent_name") = true →
       containsSeq ['\\', 'n'] (generateEventDescription ctx ev).data = true) := by
  have hA : ∀ n, '\n' ∉ (jsToString (lastVal ev n)).data := noNewline_lastVal ev hfields
  have hlabelTBD : '\n' ∉ (jsToString (jsOr (lastVal ev "label") (JSVal.vstr "TBD"))).data := by
    unfold jsOr
    split
    · exact hA "label"
    · decide
  constructor
  · unfold generateEventDescription
    split_ifs <;>
      (repeat (first
        | apply noNL_append
        | exact hA _
        | exact hlocale _ _
        | exact hlabelTBD
        | decide))
  · intro hig hop
    unfold generateEventDescription
    simp only [hig, hop, Bool.and_self, if_true]
    split_ifs <;>
      (simp only [String.data_append]
       repeat (first
         | decide
         | (apply containsSeq_append_right; decide)
         | apply containsSeq_append_left))

theorem etagOf_ne_empty (a b : String) : etagOf a b ≠ "" := by
  intro h
  have hd := congrArg String.data h
  simp [etagOf, String.data_append] at hd

/-! ## C4 — conditional requests answered 304 without any work -/

/-- C4: with a cached pair present, no `cache=off` and no `refresh=true`,
and either `If-Modified-Since` at-or-after the cached watermark or
`If-None-Match` equal to the cached ETag, `serveCalendar` answers
`304 Not Modified` with no body, makes no upstream call of any kind, writes
and deletes no store key (empty effect trace), and leaves the store exactly
as it was. -/
theorem claim_C4_conditional_304 (ctx : Ctx) (st : Store) (req : Req) (calendarId : String)
    (forceText : Bool) (tokenData : JVal) (body w : String) (wm : Int)
    (hparse : parseCalendarToken st calendarId = Except.ok (some tokenData))
    (htr : jvTruthy tokenData = true)
    (hco : req.cacheParam ≠ some "off") (hfr : req.refreshParam ≠ some "true")
    (hics : storeGet st (cacheKeyOf calendarId) = some body) (hb : body ≠ "")
    (hlu : storeGet st (lastUpdateKeyOf calendarId) = some w) (hwne : w ≠ "")
    (hwm : jsParseInt w = some wm)
    (hcond : (∃ s t, req.ims = some s ∧ s ≠ "" ∧ ctx.parseDate s = some t ∧ wm ≤ t)
             ∨ req.inm = some (etagOf calendarId w)) :
    serveCalendar ctx st req calendarId forceText
      = Outcome.ok
          { status := 304, body := none, lastModified := some wm,
            etag := some (etagOf calendarId w), contentType := none,
            contentDisposition := none } st [] := by
  have hcob : (req.cacheParam == some "off") = false := by
    simp [hco]
  have hfrb : (req.refreshParam == some "true") = false := by
    simp [hfr]
  have hbb : (body != "") = true := by simp [hb]
  have hwb : (w != "") = true := by simp [hwne]
  unfold serveCalendar
  rw [hparse]
  simp only [htr, if_true, hcob, hfrb, Bool.or_self, if_false, Bool.false_eq_true, hics, hlu]
  unfold sc_cond
  simp only [optTruthy, hbb, hwb, Option.getD_some, Bool.and_self, if_true, hwm]
  rcases hcond with ⟨s, t, hs, hsne, hp, hle⟩ | hinm
  · rw [hs]
    have hd : decide (wm ≤ t) = true := by simp [hle]
    simp [hsne, hp, hd]
  · rw [hinm]
    simp [etagOf_ne_empty calendarId w]

/-- A store holding a resolvable token `abc` for team `7` (games filter), an
OAuth access token, and a cached feed with watermark `1000`. -/
def stCached : Store :=
  [("calendar_token:abc", stringifyTokenMapping "7" "games"),
   ("oauth_access_token", "tk"),
   ("calendar_abc", "BODY"),
   ("calendar_abc_lastupdate", "1000")]

theorem claim_C4_conditional_304_witness :
    storeGet stCached (cacheKeyOf "abc") = some "BODY"
    ∧ serveCalendar ctxFix stCached
        { cacheParam := none, refreshParam := none, formatParam := none,
          ims := none, inm := some "\"abc-1000\"" } "abc" false
      = Outcome.ok
          { status := 304, body := none, lastModified := some 1000,
            etag := some (etagOf "abc" "1000"), contentType := none,
            contentDisposition := none } stCached [] := by
  refine ⟨rfl, ?_⟩
  exact claim_C4_conditional_304 ctxFix stCached
    { cacheParam := none, refreshParam := none, formatParam := none,
      ims := none, inm := some "\"abc-1000\"" } "abc" false
    (JVal.jobj [("teamId", JVal.jstr "7"), ("filterType", JVal.jstr "games")])
    "BODY" "1000" 1000 rfl rfl (by decide) (by decide) rfl (by decide) rfl (by decide)
    rfl (Or.inr rfl)

/-! ## C3 — fresh cache served as a full 200 without re-rendering -/

/-- C3: with a cached pair present, no bypass flags, no conditional headers
(those are answered earlier, see C4), a usable access token, and a
successful event fetch whose filtered watermark is at most the cached one,
`serveCalendar` answers `200` with exactly the cached body, `Last-Modified`
and `ETag` derived from the cached watermark, performs only the team and
event fetches (no per-event location fetch — no new document is rendered),
writes nothing, and leaves the store unchanged. -/
theorem claim_C3_cache_fresh (ctx : Ctx) (st : Store) (req : Req) (calendarId : String)
    (forceText : Bool) (tokenData : JVal) (body w atk : String) (wm : Int)
    (events0 : List RawEvent)
    (hparse : parseCalendarToken st calendarId = Except.ok (some tokenData))
    (htr : jvTruthy tokenData = true)
    (hco : req.cacheParam ≠ some "off") (hfr : req.refreshParam ≠ some "true")
    (hics : storeGet st (cacheKeyOf calendarId) = some body) (hb : body ≠ "")
    (hlu : storeGet st (lastUpdateKeyOf calendarId) = some w) (hwne : w ≠ "")
    (hwm : jsParseInt w = some wm)
    (hims : req.ims = none) (hinm : req.inm = none)
    (hacc : storeGet st "oauth_access_token" = some atk) (hat : atk ≠ "")
    (hev : ctx.eventsFetch = some events0)
    (hfresh : latestUpdate ctx
        (applyFilter (jvProp tokenData "filterType") (dropCancelled events0)) ≤ wm) :
    serveCalendar ctx st req calendarId forceText
      = Outcome.ok
          { status := 200, body := some body, lastModified := some wm,
            etag := some (etagOf calendarId w),
            contentType := some "text/calendar; charset=utf-8",
            contentDisposition := some ("attachment; filename=\""
              ++ jvPropToString tokenData "teamId" ++ "_"
              ++ jvPropToString tokenData "filterType" ++ ".ics\"") }
          st [Eff.fetchTeam, Eff.fetchEvents] := by
  have hcob : (req.cacheParam == some "off") = false := by simp [hco]
  have hfrb : (req.refreshParam == some "true") = false := by simp [hfr]
  have hbb : (body != "") = true := by simp [hb]
  have hwb : (w != "") = true := by simp [hwne]
  have hatb : (atk != "") = true := by simp [hat]
  unfold serveCalendar
  rw [hparse]
  simp only [htr, if_true, hcob, hfrb, Bool.or_self, if_false, Bool.false_eq_true, hics, hlu]
  unfold sc_cond
  simp only [optTruthy, hbb, hwb, Option.getD_some, Bool.and_self, if_true, hwm,
    hims, hinm, Bool.or_self, if_false, Bool.false_eq_true]
  unfold sc_auth
  simp only [hacc, optTruthy, hatb, if_true]
  unfold sc_team
  simp only [hev, List.nil_append]
  unfold sc_fetched
  have hd : decide (latestUpdate ctx
      (applyFilter (jvProp tokenData "filterType") (dropCancelled events0)) ≤ wm) = true := by
    simp [hfresh]
  simp only [optTruthy, hbb, hwb, Option.getD_some, hwm, hd, Bool.and_self, if_true]
  rfl

theorem claim_C3_cache_fresh_witness :
    storeGet stCached (lastUpdateKeyOf "abc") = some "1000"
    ∧ serveCalendar ctxFix stCached reqFix "abc" false
      = Outcome.ok
          { status := 200, body := some "BODY", lastModified := some 1000,
            etag := some (etagOf "abc" "1000"),
            contentType := some "text/calendar; charset=utf-8",
            contentDisposition := some "attachment; filename=\"7_games.ics\"" }
          stCached [Eff.fetchTeam, Eff.fetchEvents] := by
  refine ⟨rfl, ?_⟩
  exact claim_C3_cache_fresh ctxFix stCached reqFix "abc" false
    (JVal.jobj [("teamId", JVal.jstr "7"), ("filterType", JVal.jstr "games")])
    "BODY" "1000" "tk" 1000 [] rfl rfl (by decide) (by decide) rfl (by decide) rfl
    (by decide) rfl rfl rfl rfl (by decide) rfl (by decide)

/-! ## C7 — absent vs. malformed stored token values -/

/-- C7 counterexample: an absent mapping yields the 400 invalid-token
response, but a malformed (not-JSON-parseable) stored value makes
`JSON.parse` throw inside `parseCalendarToken` — `serveCalendar` ends in an
escaped exception (here: a worker error, not a 400), contradicting "both are
reported as invalid token ... it never throws an unhandled exception". -/
theorem claim_C7_counterexample :
    serveCalendar ctxFix [] reqFix "badtok" false = Outcome.ok invalidTokenResp [] []
    ∧ jsonParse "garbage" = none
    ∧ serveCalendar ctxFix [("calendar_token:badtok", "garbage")] reqFix "badtok" false
        = Outcome.thrown [("calendar_token:badtok", "garbage")] [] := by
  refine ⟨rfl, rfl, rfl⟩

/-- C7 amended: an absent stored value resolves to `null` and yields the
terminal 400 invalid-token response; a malformed (not-JSON-parseable) stored
value is NOT treated the same — `JSON.parse` throws and the exception
escapes `serveCalendar` (no 400 is produced). -/
theorem claim_C7_amended (ctx : Ctx) (st : Store) (req : Req) (token : String)
    (forceText : Bool) :
    (storeGet st ("calendar_token:" ++ token) = none →
       serveCalendar ctx st req token forceText = Outcome.ok invalidTokenResp st [])
    ∧ (∀ m, storeGet st ("calendar_token:" ++ token) = some m → m ≠ "" →
         jsonParse m = none →
         serveCalendar ctx st req token forceText = Outcome.thrown st []) := by
  constructor
  · intro habs
    unfold serveCalendar parseCalendarToken
    rw [habs]
  · intro m hm hne hparse
    unfold serveCalendar parseCalendarToken
    rw [hm]
    simp [hne, hparse]

theorem claim_C7_amended_witness :
    storeGet ([] : Store) ("calendar_token:" ++ "badtok") = none
    ∧ serveCalendar ctxFix [] reqFix "badtok" false = Outcome.ok invalidTokenResp [] []
    ∧ jsonParse "garbage" = none
    ∧ serveCalendar ctxFix [("calendar_token:badtok", "garbage")] reqFix "badtok" false
        = Outcome.thrown [("calendar_token:badtok", "garbage")] [] :=
  ⟨rfl,
   (claim_C7_amended ctxFix [] reqFix "badtok" false).1 rfl,
   rfl,
   (claim_C7_amended ctxFix [("calendar_token:badtok", "garbage")] reqFix "badtok" false).2
     "garbage" rfl (by decide) rfl⟩

/-! ## C2 — issue/resolve round-trip -/

/-- A generic store mutation, for stating what later operations may do to
the registry mapping. -/
inductive StoreOp where
  | put : String → String → StoreOp
  | del : String → StoreOp
  deriving DecidableEq, Repr

def opKey : StoreOp → String
  | .put k _ => k
  | .del k => k

def applyStoreOp (st : Store) : StoreOp → Store
  | .put k v => storePut st k v
  | .del k => storeDelete st k

def applyStoreOps (st : Store) (ops : List StoreOp) : Store :=
  ops.foldl applyStoreOp st

theorem find?_filter_ne (l : List (String × String)) (k k' : String) (h : k' ≠ k) :
    (l.filter (fun p => p.1 != k')).find? (fun p => p.1 == k)
      = l.find? (fun p => p.1 == k) := by
  induction l with
  | nil => rfl
  | cons p ps ih =>
    by_cases hpk : p.1 = k
    · have h1 : (p.1 != k') = true := by
        simp [hpk]
        exact Ne.symm h
      have h2 : ((p.1 == k) = true) := by simp [hpk]
      rw [List.filter_cons, if_pos h1,
        @List.find?_cons_of_pos _ (fun q => q.1 == k) p (List.filter (fun q => q.1 != k') ps) h2,
        @List.find?_cons_of_pos _ (fun q => q.1 == k) p ps h2]
    · have h2 : ¬ ((fun q => q.1 == k) p = true) := by simp [hpk]
      rw [List.filter_cons]
      by_cases hpk' : (p.1 != k') = true
      · rw [if_pos hpk',
          @List.find?_cons_of_neg _ (fun q => q.1 == k) p (List.filter (fun q => q.1 != k') ps) h2,
          ih, @List.find?_cons_of_neg _ (fun q => q.1 == k) p ps h2]
      · rw [if_neg hpk', ih, @List.find?_cons_of_neg _ (fun q => q.1 == k) p ps h2]

theorem storeGet_storePut_ne (st : Store) (k' v k : String) (h : k' ≠ k) :
    storeGet (storePut st k' v) k = storeGet st k := by
  unfold storeGet storePut
  rw [@List.find?_cons_of_neg _ (fun q => q.1 == k) (k', v)
      (List.filter (fun q => q.1 != k') st) (by simp [h]),
    find?_filter_ne st k k' h]

theorem storeGet_storeDelete_ne (st : Store) (k' k : String) (h : k' ≠ k) :
    storeGet (storeDelete st k') k = storeGet st k := by
  unfold storeGet storeDelete
  rw [find?_filter_ne st k k' h]

theorem storeGet_storePut_same (st : Store) (k v : String) :
    storeGet (storePut st k v) k = some v := by
  unfold storeGet storePut
  rw [@List.find?_cons_of_pos _ (fun q => q.1 == k) (k, v)
      (List.filter (fun q => q.1 != k) st) (by simp)]

theorem storeGet_applyStoreOps (st : Store) (ops : List StoreOp) (k : String)
    (h : ∀ op ∈ ops, opKey op ≠ k) :
    storeGet (applyStoreOps st ops) k = storeGet st k := by
  induction ops generalizing st with
  | nil => rfl
  | cons op ops ih =>
    rw [show applyStoreOps st (op :: ops) = applyStoreOps (applyStoreOp st op) ops from rfl]
    rw [ih (applyStoreOp st op) (fun o ho => h o (List.mem_cons_of_mem _ ho))]
    cases op with
    | put k' v => exact storeGet_storePut_ne st k' v k (h (.put k' v) (List.mem_cons_self _ _))
    | del k' => exact storeGet_storeDelete_ne st k' k (h (.del k') (List.mem_cons_self _ _))

theorem stringifyTokenMapping_ne_empty (tid ft : String) :
    stringifyTokenMapping tid ft ≠ "" := by
  intro h
  have hd := congrArg String.data h
  rw [data_stringifyTokenMapping] at hd
  simp at hd

/-- C2 counterexample: two different teams that share a team name get the
same token for the same filter type (the token depends only on
`(teamName, filterType, secret)`).  Issuing for team `2` after team `1`
overwrites the registry mapping — no delete is ever performed — and from
then on the token issued for team `1` resolves to team `2`'s pair, not the
pair used to create it. -/
theorem claim_C2_counterexample :
    (issueCalendarToken (fun _ => "0123456789abcdef0123456789abcdef") none
        (issueCalendarToken (fun _ => "0123456789abcdef0123456789abcdef") none
          [] "1" "N" "all").2 "2" "N" "all").1
      = (issueCalendarToken (fun _ => "0123456789abcdef0123456789abcdef") none
          [] "1" "N" "all").1
    ∧ parseCalendarToken
        (issueCalendarToken (fun _ => "0123456789abcdef0123456789abcdef") none
          (issueCalendarToken (fun _ => "0123456789abcdef0123456789abcdef") none
            [] "1" "N" "all").2 "2" "N" "all").2
        (issueCalendarToken (fun _ => "0123456789abcdef0123456789abcdef") none
          [] "1" "N" "all").1
      = Except.ok (some (JVal.jobj [("teamId", JVal.jstr "2"), ("filterType", JVal.jstr "all")]))
    ∧ (JVal.jstr "2" = JVal.jstr "1" → False) := by
  refine ⟨rfl, rfl, ?_⟩
  intro h
  have : ("2" : String) = "1" := JVal.jstr.inj h
  exact absurd this (by decide)

/-- C2 amended: immediately after `issue` (token computation plus the
registry write) the token resolves to exactly the `{teamId, filterType}`
pair that was written, and this persists under any sequence of later store
operations that neither deletes nor overwrites that token's registry key.
(A later `issue` for the same `teamName`/`filterType` but a different
`teamId` writes that same key and changes the resolution — see the
counterexample.) -/
theorem claim_C2_amended (sha256hex : String → String) (clientSecret : Option String)
    (st : Store) (teamId teamName filterType : String) (ops : List StoreOp)
    (hops : ∀ op ∈ ops, opKey op ≠ "calendar_token:"
      ++ (issueCalendarToken sha256hex clientSecret st teamId teamName filterType).1) :
    parseCalendarToken
        (applyStoreOps
          (issueCalendarToken sha256hex clientSecret st teamId teamName filterType).2 ops)
        (issueCalendarToken sha256hex clientSecret st teamId teamName filterType).1
      = Except.ok (some (JVal.jobj
          [("teamId", JVal.jstr teamId), ("filterType", JVal.jstr filterType)])) := by
  unfold parseCalendarToken
  rw [storeGet_applyStoreOps _ _ _ hops]
  rw [show (issueCalendarToken sha256hex clientSecret st teamId teamName filterType).2
      = storePut st ("calendar_token:"
          ++ (issueCalendarToken sha256hex clientSecret st teamId teamName filterType).1)
          (stringifyTokenMapping teamId filterType) from rfl]
  rw [storeGet_storePut_same]
  simp [stringifyTokenMapping_ne_empty, jsonParse_stringifyTokenMapping]

theorem claim_C2_amended_witness :
    (∀ op ∈ [StoreOp.put "x" "y"], opKey op ≠ "calendar_token:"
      ++ (issueCalendarToken (fun _ => "0123456789abcdef0123456789abcdef") none
            [] "7" "Leafs" "games").1)
    ∧ parseCalendarToken
        (applyStoreOps
          (issueCalendarToken (fun _ => "0123456789abcdef0123456789abcdef") none
            [] "7" "Leafs" "games").2 [StoreOp.put "x" "y"])
        (issueCalendarToken (fun _ => "0123456789abcdef0123456789abcdef") none
          [] "7" "Leafs" "games").1
      = Except.ok (some (JVal.jobj
          [("teamId", JVal.jstr "7"), ("filterType", JVal.jstr "games")])) :=
  ⟨by decide,
   claim_C2_amended (fun _ => "0123456789abcdef0123456789abcdef") none
     [] "7" "Leafs" "games" [StoreOp.put "x" "y"] (by decide)⟩

theorem claim_C9_amended_witness :
    (∀ p ∈ (RawEvent.mk [("is_game", JSVal.vbool true), ("opponent_name", JSVal.vstr "X"),
        ("game_type", JSVal.vstr "Away")]).data, '\n' ∉ (jsToString p.2).data)
    ∧ ('\n' ∉ (generateEventDescription ctxFix
        (RawEvent.mk [("is_game", JSVal.vbool true), ("opponent_name", JSVal.vstr "X"),
          ("game_type", JSVal.vstr "Away")])).data
       ∧ (jsTruthy (lastVal (RawEvent.mk [("is_game", JSVal.vbool true),
            ("opponent_name", JSVal.vstr "X"), ("game_type", JSVal.vstr "Away")]) "is_game")
            = true →
          jsTruthy (lastVal (RawEvent.mk [("is_game", JSVal.vbool true),
            ("opponent_name", JSVal.vstr "X"), ("game_type", JSVal.vstr "Away")])
            "opponent_name") = true →
          containsSeq ['\\', 'n'] (generateEventDescription ctxFix
            (RawEvent.mk [("is_game", JSVal.vbool true), ("opponent_name", JSVal.vstr "X"),
              ("game_type", JSVal.vstr "Away")])).data = true)) :=
  ⟨by decide,
   claim_C9_amended ctxFix
     (RawEvent.mk [("is_game", JSVal.vbool true), ("opponent_name", JSVal.vstr "X"),
       ("game_type", JSVal.vstr "Away")])
     (by decide)
     (fun a tz => (by decide : '\n' ∉ ("5:20 PM" : String).data))⟩

/-! ## C6 — non-game multi-team title substitution -/

/-- C6 counterexample: for a non-game event whose multi-team title is
`Leafs at Leafs Arena`, upstream name `Leafs` and custom name `L`, the code
replaces only the FIRST occurrence, case-sensitively
(`customTitle.replace(actualTeamName, customTeamName)` with a string
pattern), giving `L at Leafs Arena`; the claimed every-occurrence
case-insensitive substitution (the games-path `replaceAllCIL`) would give
`L at L Arena`. -/
theorem claim_C6_counterexample :
    nonGameTitle [("custom_team_name_9", "L")] "9" (some "Leafs")
        (RawEvent.mk [("formatted_title_for_multi_team", JSVal.vstr "Leafs at Leafs Arena")])
      = Except.ok (JSVal.vstr "L at Leafs Arena")
    ∧ (⟨replaceAllCIL ("Leafs" : String).data ("L" : String).data
          ("Leafs at Leafs Arena" : String).data⟩ : String) = "L at L Arena"
    ∧ ("L at Leafs Arena" : String) ≠ "L at L Arena" := by
  refine ⟨rfl, rfl, by decide⟩

theorem string_data_ne_nil (s : String) (h : s ≠ "") : s.data ≠ [] := by
  intro hd
  apply h
  have hs : s = String.mk s.data := rfl
  rw [hs, hd]

/-- C6 amended: for a non-game event with no `formatted_title` but a truthy
string multi-team title, when both the upstream team name and a custom team
name are known, the synthesized title replaces the FIRST occurrence of the
upstream team name, matched case-sensitively (not every occurrence
case-insensitively as in the games-without-opponent path): if the upstream
name does not occur verbatim the title is unchanged, and otherwise the
earliest occurrence is replaced by the custom name. -/
theorem claim_C6_amended (st : Store) (teamId : String) (a c mt : String)
    (ev : RawEvent)
    (hft : jsTruthy (lastVal ev "formatted_title") = false)
    (hmt : lastVal ev "formatted_title_for_multi_team" = JSVal.vstr mt)
    (hmtt : mt ≠ "")
    (hc : storeGet st ("custom_team_name_" ++ teamId) = some c) (hcne : c ≠ "")
    (hane : a ≠ "") :
    ∃ out : String, nonGameTitle st teamId (some a) ev = Except.ok (JSVal.vstr out)
      ∧ ((containsSeq a.data mt.data = false ∧ out = mt)
         ∨ (∃ pre post, mt.data = pre ++ a.data ++ post
              ∧ out.data = pre ++ c.data ++ post
              ∧ (∀ pre' post', mt.data = pre' ++ a.data ++ post'
                   → pre.length ≤ pre'.length))) := by
  unfold nonGameTitle
  rw [hft]
  simp only [Bool.false_eq_true, if_false, hmt]
  have hmtb : jsTruthy (JSVal.vstr mt) = true := by simp [jsTruthy, hmtt]
  rw [hmtb]
  simp only [if_true, hc]
  rw [if_pos ⟨hane, hcne⟩]
  cases hcont : containsSeq a.data mt.data with
  | false =>
    exact ⟨mt, by simp, Or.inl ⟨rfl, rfl⟩⟩
  | true =>
    rcases replaceFirstL_spec a.data c.data mt.data (string_data_ne_nil a hane) hcont
      with ⟨pre, post, hsplit, hrepl, hmin⟩
    refine ⟨⟨replaceFirstL a.data c.data mt.data⟩, by simp, Or.inr ⟨pre, post, hsplit, ?_, hmin⟩⟩
    exact hrepl

theorem claim_C6_amended_witness :
    jsTruthy (lastVal (RawEvent.mk
        [("formatted_title_for_multi_team", JSVal.vstr "Leafs at Leafs Arena")])
      "formatted_title") = false
    ∧ (∃ out : String, nonGameTitle [("custom_team_name_9", "L")] "9" (some "Leafs")
          (RawEvent.mk [("formatted_title_for_multi_team", JSVal.vstr "Leafs at Leafs Arena")])
        = Except.ok (JSVal.vstr out)
      ∧ ((containsSeq ("Leafs" : String).data ("Leafs at Leafs Arena" : String).data = false
            ∧ out = "Leafs at Leafs Arena")
         ∨ (∃ pre post, ("Leafs at Leafs Arena" : String).data
              = pre ++ ("Leafs" : String).data ++ post
              ∧ out.data = pre ++ ("L" : String).data ++ post
              ∧ (∀ pre' post', ("Leafs at Leafs Arena" : String).data
                   = pre' ++ ("Leafs" : String).data ++ post'
                   → pre.length ≤ pre'.length)))) :=
  ⟨by decide,
   claim_C6_amended [("custom_team_name_9", "L")] "9" "Leafs" "L" "Leafs at Leafs Arena"
     (RawEvent.mk [("formatted_title_for_multi_team", JSVal.vstr "Leafs at Leafs Arena")])
     (by decide) rfl (by decide) rfl (by decide) (by decide)⟩

/-! ## C1 — ICS text-value escaping -/

/-- C1 counterexample: a rendered document whose `X-WR-CALNAME` value
carries a raw, unescaped comma (the calendar name is emitted verbatim,
line 199), and whose `SUMMARY` value carries a raw newline (only commas are
escaped in `SUMMARY`, line 276) — contradicting "every comma and every
literal newline occurring inside any ICS text-value field (X-WR-CALNAME,
SUMMARY, DESCRIPTION, LOCATION) is escaped". -/
theorem claim_C1_counterexample :
    IcsLine.mk "X-WR-CALNAME" "a, b" ∈ linesOfOk
      (renderCalendar { ctxFix with parseDate := fun _ => some 0 } [] "9" "a, b" none
        [RawEvent.mk [("start_date", JSVal.vstr "S"), ("formatted_title", JSVal.vstr "X\nY")]])
    ∧ commasEscaped "a, b" = false
    ∧ IcsLine.mk "SUMMARY" "Team: X\nY" ∈ linesOfOk
      (renderCalendar { ctxFix with parseDate := fun _ => some 0 } [] "9" "a, b" none
        [RawEvent.mk [("start_date", JSVal.vstr "S"), ("formatted_title", JSVal.vstr "X\nY")]])
    ∧ '\n' ∈ ("Team: X\nY" : String).data := by
  refine ⟨by decide, by decide, by decide, by decide⟩

/-- The escaping discipline a rendered content line actually satisfies:
`DESCRIPTION` values have commas escaped and no raw newline; `SUMMARY` and
`LOCATION` values have commas escaped. -/
def escapedLine (l : IcsLine) : Prop :=
  (l.name = "DESCRIPTION" → commasEscaped l.value = true ∧ '\n' ∉ l.value.data)
  ∧ ((l.name = "SUMMARY" ∨ l.name = "LOCATION") → commasEscaped l.value = true)

theorem escapedLine_other (l : IcsLine) (h1 : l.name ≠ "DESCRIPTION")
    (h2 : l.name ≠ "SUMMARY") (h3 : l.name ≠ "LOCATION") : escapedLine l := by
  refine ⟨fun h => absurd h h1, fun h => ?_⟩
  rcases h with h | h
  · exact absurd h h2
  · exact absurd h h3

theorem commasEscaped_escCommas (s : String) : commasEscaped (escCommas s) = true :=
  commasEscapedL_escCommasL s.data

theorem escapedLine_mk_other (n v : String) (h1 : n ≠ "DESCRIPTION")
    (h2 : n ≠ "SUMMARY") (h3 : n ≠ "LOCATION") : escapedLine (IcsLine.mk n v) :=
  escapedLine_other (IcsLine.mk n v) h1 h2 h3

theorem escapedLine_summary (v : String) :
    escapedLine (IcsLine.mk "SUMMARY" (escCommas v)) := by
  refine ⟨fun h => absurd (show ("SUMMARY" : String) = "DESCRIPTION" from h) (by decide),
    fun _ => commasEscaped_escCommas v⟩

theorem escapedLine_location (v : String) :
    escapedLine (IcsLine.mk "LOCATION" (escCommas v)) := by
  refine ⟨fun h => absurd (show ("LOCATION" : String) = "DESCRIPTION" from h) (by decide),
    fun _ => commasEscaped_escCommas v⟩

theorem escapedLine_description (v : String) :
    escapedLine (IcsLine.mk "DESCRIPTION" (escCommas (escNewlines v))) := by
  refine ⟨fun _ => ⟨commasEscaped_escCommas (escNewlines v), ?_⟩, fun h => ?_⟩
  · exact newline_notMem_escCommasL _ (newline_notMem_escNewlinesL v.data)
  · rcases h with h | h
    · exact absurd (show ("DESCRIPTION" : String) = "SUMMARY" from h) (by decide)
    · exact absurd (show ("DESCRIPTION" : String) = "LOCATION" from h) (by decide)

theorem generateEventFromTemplate_escaped (ctx : Ctx) (teamId : String) (ev : RawEvent)
    (t : JSVal) (startMs endMs : Int) (lines : List IcsLine) (fx : List Eff)
    (hok : generateEventFromTemplate ctx teamId ev t startMs endMs = .ok (lines, fx)) :
    ∀ l ∈ lines, escapedLine l := by
  unfold generateEventFromTemplate at hok
  intro l hl
  cases t with
  | vundefined => exact absurd hok (by simp)
  | vnull => exact absurd hok (by simp)
  | vbool b => exact absurd hok (by simp)
  | vnum n => exact absurd hok (by simp)
  | vstr title =>
    cases hupd : updatedAtMs ctx ev with
    | error e => rw [hupd] at hok; exact absurd hok (by simp)
    | ok updMs =>
      rw [hupd] at hok
      simp only [] at hok
      rw [Except.ok.injEq, Prod.mk.injEq] at hok
      rcases hok with ⟨hlines, _⟩
      subst hlines
      simp only [List.mem_append, List.mem_cons, List.not_mem_nil, or_false] at hl
      rcases hl with (((h | h | h | h | h) | h) | h) | (h | h | h | h)
      · exact h ▸ escapedLine_mk_other _ _ (by decide) (by decide) (by decide)
      · exact h ▸ escapedLine_mk_other _ _ (by decide) (by decide) (by decide)
      · exact h ▸ escapedLine_mk_other _ _ (by decide) (by decide) (by decide)
      · exact h ▸ escapedLine_mk_other _ _ (by decide) (by decide) (by decide)
      · exact h ▸ escapedLine_summary title
      · split at h
        · simp only [List.mem_cons, List.not_mem_nil, or_false] at h
          exact h ▸ escapedLine_description (generateEventDescription ctx ev)
        · exact absurd h (List.not_mem_nil l)
      · split at h
        · simp only [List.mem_cons, List.not_mem_nil, or_false] at h
          exact h ▸ escapedLine_location _
        · exact absurd h (by simp)
      · exact h ▸ escapedLine_mk_other _ _ (by decide) (by decide) (by decide)
      · exact h ▸ escapedLine_mk_other _ _ (by decide) (by decide) (by decide)
      · exact h ▸ escapedLine_mk_other _ _ (by decide) (by decide) (by decide)
      · exact h ▸ escapedLine_mk_other _ _ (by decide) (by decide) (by decide)

theorem renderEvents_escaped (ctx : Ctx) (st : Store) (teamId : String)
    (actual : Option String) :
    ∀ evs lines fx, renderEvents ctx st teamId actual evs = .ok (lines, fx) →
      ∀ l ∈ lines, escapedLine l := by
  intro evs
  induction evs with
  | nil =>
    intro lines fx hok l hl
    rw [renderEvents] at hok
    rw [Except.ok.injEq, Prod.mk.injEq] at hok
    rcases hok with ⟨hlines, _⟩
    subst hlines
    exact absurd hl (List.not_mem_nil l)
  | cons ev rest ih =>
    intro lines fx hok l hl
    rw [renderEvents.eq_def] at hok
    simp only [] at hok
    by_cases hst : jsTruthy (lastVal ev "start_date") = true
    · rw [if_pos hst] at hok
      cases hdv : dateVal ctx (lastVal ev "start_date") with
      | none => rw [hdv] at hok; exact absurd hok (by simp)
      | some startMs =>
        rw [hdv] at hok
        simp only [] at hok
        split at hok
        · exact absurd hok (by simp)
        · rename_i endMs hend
          split at hok
          · exact absurd hok (by simp)
          · rename_i customTitle htitle
            split at hok
            · exact absurd hok (by simp)
            · rename_i blk hblk
              split at hok
              · exact absurd hok (by simp)
              · rename_i tl htl
                rw [Except.ok.injEq, Prod.mk.injEq] at hok
                rcases hok with ⟨hlines, _⟩
                subst hlines
                rcases List.mem_append.mp hl with h | h
                · exact generateEventFromTemplate_escaped ctx teamId ev customTitle
                    startMs endMs blk.1 blk.2 hblk l h
                · exact ih tl.1 tl.2 htl l h
    · rw [if_neg hst] at hok
      exact ih lines fx hok l hl

/-- C1 amended: in every successfully rendered calendar document, every
`DESCRIPTION` value has all commas escaped and contains no raw newline, and
every `SUMMARY` and `LOCATION` value has all commas escaped.  (As the
counterexample shows, `X-WR-CALNAME` is emitted verbatim — its commas are
NOT escaped — and raw newlines can survive inside `SUMMARY`/`LOCATION`
values, so the claim holds only in this weakened form.) -/
theorem claim_C1_amended (ctx : Ctx) (st : Store) (teamId calendarName : String)
    (actual : Option String) (events : List RawEvent) (lines : List IcsLine)
    (fx : List Eff)
    (hok : renderCalendar ctx st teamId calendarName actual events = .ok (lines, fx)) :
    ∀ l ∈ lines,
      (l.name = "DESCRIPTION" → commasEscaped l.value = true ∧ '\n' ∉ l.value.data)
      ∧ ((l.name = "SUMMARY" ∨ l.name = "LOCATION") → commasEscaped l.value = true) := by
  unfold renderCalendar at hok
  cases hev : renderEvents ctx st teamId actual events with
  | error e => rw [hev] at hok; exact absurd hok (by simp)
  | ok evBlock =>
    rw [hev] at hok
    simp only [] at hok
    rw [Except.ok.injEq, Prod.mk.injEq] at hok
    rcases hok with ⟨hlines, _⟩
    subst hlines
    intro l hl
    simp only [List.mem_append, List.mem_cons, List.not_mem_nil, or_false] at hl
    rcases hl with (((h | h | h | h | h) | h) | h) | h
    · exact h ▸ escapedLine_mk_other _ _ (by decide) (by decide) (by decide)
    · exact h ▸ escapedLine_mk_other _ _ (by decide) (by decide) (by decide)
    · exact h ▸ escapedLine_mk_other _ _ (by decide) (by decide) (by decide)
    · exact h ▸ escapedLine_mk_other _ _ (by decide) (by decide) (by decide)
    · exact h ▸ escapedLine_mk_other _ _ (by decide) (by decide) (by decide)
    · split at h
      · simp only [List.mem_cons, List.not_mem_nil, or_false] at h
        exact h ▸ escapedLine_mk_other _ _ (by decide) (by decide) (by decide)
      · exact absurd h (List.not_mem_nil l)
    · exact renderEvents_escaped ctx st teamId actual events evBlock.1 evBlock.2 hev l h
    · exact h ▸ escapedLine_mk_other _ _ (by decide) (by decide) (by decide)

theorem claim_C1_amended_witness :
    renderCalendar { ctxFix with parseDate := fun _ => some 0 } [] "9" "a, b" none
        [RawEvent.mk [("start_date", JSVal.vstr "S"), ("formatted_title", JSVal.vstr "X\nY")]]
      = Except.ok (linesOfOk (renderCalendar { ctxFix with parseDate := fun _ => some 0 }
          [] "9" "a, b" none
          [RawEvent.mk [("start_date", JSVal.vstr "S"),
            ("formatted_title", JSVal.vstr "X\nY")]]), [])
    ∧ ((IcsLine.mk "SUMMARY" "Team: X\nY").name = "DESCRIPTION" →
        commasEscaped (IcsLine.mk "SUMMARY" "Team: X\nY").value = true
          ∧ '\n' ∉ (IcsLine.mk "SUMMARY" "Team: X\nY").value.data)
    ∧ (((IcsLine.mk "SUMMARY" "Team: X\nY").name = "SUMMARY"
          ∨ (IcsLine.mk "SUMMARY" "Team: X\nY").name = "LOCATION") →
        commasEscaped (IcsLine.mk "SUMMARY" "Team: X\nY").value = true) := by
  refine ⟨rfl, ?_⟩
  exact claim_C1_amended { ctxFix with parseDate := fun _ => some 0 } [] "9" "a, b" none
    [RawEvent.mk [("start_date", JSVal.vstr "S"), ("formatted_title", JSVal.vstr "X\nY")]]
    (linesOfOk (renderCalendar { ctxFix with parseDate := fun _ => some 0 } [] "9" "a, b" none
      [RawEvent.mk [("start_date", JSVal.vstr "S"), ("formatted_title", JSVal.vstr "X\nY")]]))
    [] rfl (IcsLine.mk "SUMMARY" "Team: X\nY") (by decide)

/-! ## C10 — zero watermark: no caching, clock-derived headers -/

theorem sc_gen_ok_status (ctx : Ctx) (req : Req) (calendarId : String) (forceText : Bool)
    (teamId filterTypeStr : String) (actual : Option String) (events : List RawEvent)
    (latest : Int) (st : Store) (effs : List Eff) (resp : Resp) (st' : Store)
    (effs' : List Eff)
    (hok : sc_gen ctx req calendarId forceText teamId filterTypeStr actual events latest st effs
      = Outcome.ok resp st' effs') : resp.status = 200 := by
  unfold sc_gen at hok
  simp only [] at hok
  split at hok
  · exact absurd hok (by simp)
  · rw [Outcome.ok.injEq] at hok
    rcases hok with ⟨hresp, -⟩
    rw [← hresp]

theorem sc_fetched_ok_status (ctx : Ctx) (req : Req) (calendarId : String) (forceText : Bool)
    (teamId : String) (ftV : Option JVal) (filterTypeStr : String) (actual : Option String)
    (events0 : List RawEvent) (cLU : Option String) (st : Store) (effs : List Eff)
    (resp : Resp) (st' : Store) (effs' : List Eff)
    (hok : sc_fetched ctx req calendarId forceText teamId ftV filterTypeStr actual events0
        none cLU st effs = Outcome.ok resp st' effs') : resp.status = 200 := by
  unfold sc_fetched at hok
  simp only [optTruthy, Bool.false_and, Bool.false_eq_true, if_false] at hok
  exact sc_gen_ok_status _ _ _ _ _ _ _ _ _ _ _ _ _ _ hok

theorem sc_team_ok_status (ctx : Ctx) (req : Req) (calendarId : String) (forceText : Bool)
    (teamId : String) (ftV : Option JVal) (filterTypeStr : String)
    (cLU : Option String) (st : Store) (effs : List Eff)
    (resp : Resp) (st' : Store) (effs' : List Eff)
    (hok : sc_team ctx req calendarId forceText teamId ftV filterTypeStr none cLU st effs
      = Outcome.ok resp st' effs') : resp.status = 500 ∨ resp.status = 200 := by
  unfold sc_team at hok
  cases hev : ctx.eventsFetch with
  | none =>
    rw [hev] at hok
    simp only [] at hok
    rw [Outcome.ok.injEq] at hok
    rcases hok with ⟨hresp, -⟩
    left
    rw [← hresp]
    rfl
  | some evs =>
    rw [hev] at hok
    simp only [] at hok
    right
    exact sc_fetched_ok_status _ _ _ _ _ _ _ _ _ _ _ _ _ _ _ hok

theorem sc_auth_ok_status (ctx : Ctx) (req : Req) (calendarId : String) (forceText : Bool)
    (teamId : String) (ftV : Option JVal) (filterTypeStr : String)
    (cLU : Option String) (st : Store) (effs : List Eff)
    (resp : Resp) (st' : Store) (effs' : List Eff)
    (hok : sc_auth ctx req calendarId forceText teamId ftV filterTypeStr none cLU st effs
      = Outcome.ok resp st' effs') :
    resp.status = 401 ∨ resp.status = 500 ∨ resp.status = 200 := by
  unfold sc_auth at hok
  simp only [] at hok
  by_cases hacc : optTruthy (storeGet st "oauth_access_token") = true
  · rw [if_pos hacc] at hok
    right
    exact sc_team_ok_status _ _ _ _ _ _ _ _ _ _ _ _ _ hok
  · rw [if_neg hacc] at hok
    split at hok
    · right
      exact sc_team_ok_status _ _ _ _ _ _ _ _ _ _ _ _ _ hok
    · rw [Outcome.ok.injEq] at hok
      rcases hok with ⟨hresp, -⟩
      left
      rw [← hresp]
      rfl

theorem sc_cond_ok_status (ctx : Ctx) (req : Req) (calendarId : String) (forceText : Bool)
    (teamId : String) (ftV : Option JVal) (filterTypeStr : String)
    (cLU : Option String) (st : Store) (effs : List Eff)
    (resp : Resp) (st' : Store) (effs' : List Eff)
    (hok : sc_cond ctx req calendarId forceText teamId ftV filterTypeStr none cLU st effs
      = Outcome.ok resp st' effs') :
    resp.status = 401 ∨ resp.status = 500 ∨ resp.status = 200 := by
  unfold sc_cond at hok
  simp only [optTruthy, Bool.false_and, Bool.false_eq_true, if_false] at hok
  exact sc_auth_ok_status _ _ _ _ _ _ _ _ _ _ _ _ _ hok

/-- Without a cached document under `calendar_{id}`, no request can be
answered `304`: every successful response of `serveCalendar` then has
status 400, 401, 500, or 200. -/
theorem serveCalendar_no304_of_no_cache (ctx : Ctx) (st : Store) (req : Req)
    (calendarId : String) (forceText : Bool) (resp : Resp) (st' : Store) (effs : List Eff)
    (hnc : storeGet st (cacheKeyOf calendarId) = none)
    (hok : serveCalendar ctx st req calendarId forceText = Outcome.ok resp st' effs) :
    resp.status ≠ 304 := by
  unfold serveCalendar at hok
  cases hp : parseCalendarToken st calendarId with
  | error e =>
    rw [hp] at hok
    exact absurd hok (by simp)
  | ok td =>
    rw [hp] at hok
    cases td with
    | none =>
      simp only [] at hok
      rw [Outcome.ok.injEq] at hok
      rcases hok with ⟨hresp, -⟩
      rw [← hresp]
      decide
    | some tokenData =>
      simp only [] at hok
      by_cases htr : jvTruthy tokenData = true
      · rw [if_pos htr] at hok
        have hnone : (if (req.cacheParam == some "off" || req.refreshParam == some "true") = true
            then none else storeGet st (cacheKeyOf calendarId)) = (none : Option String) := by
          split
          · rfl
          · exact hnc
        rw [hnone] at hok
        rcases sc_cond_ok_status _ _ _ _ _ _ _ _ _ _ _ _ _ hok with h | h | h <;>
          (rw [h]; decide)
      · rw [if_neg htr] at hok
        rw [Outcome.ok.injEq] at hok
        rcases hok with ⟨hresp, -⟩
        rw [← hresp]
        decide

theorem latestUpdate_zero (ctx : Ctx) (events : List RawEvent)
    (h : ∀ ev ∈ events, jsTruthy (findVal ev "updated_at") = true →
      dateVal ctx (findVal ev "updated_at") = none) :
    latestUpdate ctx events = 0 := by
  unfold latestUpdate
  induction events with
  | nil => rfl
  | cons ev rest ih =>
    rw [List.foldl_cons]
    have hstep : (if jsTruthy (findVal ev "updated_at") = true then
        (match dateVal ctx (findVal ev "updated_at") with
         | some t => if t > 0 then t else (0 : Int)
         | none => (0 : Int))
        else (0 : Int)) = (0 : Int) := by
      split
      · rename_i htru
        rw [h ev (List.mem_cons_self _ _) htru]
      · rfl
    simp only [] at hstep ⊢
    rw [hstep]
    exact ih (fun e he ht => h e (List.mem_cons_of_mem _ he) ht)

theorem generateEventFromTemplate_effects (ctx : Ctx) (teamId : String) (ev : RawEvent)
    (t : JSVal) (startMs endMs : Int) (lines : List IcsLine) (fx : List Eff)
    (hok : generateEventFromTemplate ctx teamId ev t startMs endMs = .ok (lines, fx)) :
    ∀ x ∈ fx, ∃ lid, x = Eff.fetchLocation lid := by
  unfold generateEventFromTemplate at hok
  intro x hx
  cases t with
  | vundefined => exact absurd hok (by simp)
  | vnull => exact absurd hok (by simp)
  | vbool b => exact absurd hok (by simp)
  | vnum n => exact absurd hok (by simp)
  | vstr title =>
    cases hupd : updatedAtMs ctx ev with
    | error e => rw [hupd] at hok; exact absurd hok (by simp)
    | ok updMs =>
      rw [hupd] at hok
      simp only [] at hok
      rw [Except.ok.injEq, Prod.mk.injEq] at hok
      rcases hok with ⟨-, hfx⟩
      subst hfx
      simp only [apply_ite Prod.snd] at hx
      repeat' split at hx
      all_goals
        first
          | exact absurd hx (List.not_mem_nil x)
          | (simp only [List.mem_cons, List.not_mem_nil, or_false] at hx; exact ⟨_, hx⟩)

theorem renderEvents_effects (ctx : Ctx) (st : Store) (teamId : String)
    (actual : Option String) :
    ∀ evs lines fx, renderEvents ctx st teamId actual evs = .ok (lines, fx) →
      ∀ x ∈ fx, ∃ lid, x = Eff.fetchLocation lid := by
  intro evs
  induction evs with
  | nil =>
    intro lines fx hok x hx
    rw [renderEvents] at hok
    rw [Except.ok.injEq, Prod.mk.injEq] at hok
    rcases hok with ⟨-, hfx⟩
    subst hfx
    exact absurd hx (List.not_mem_nil x)
  | cons ev rest ih =>
    intro lines fx hok x hx
    rw [renderEvents.eq_def] at hok
    simp only [] at hok
    by_cases hst : jsTruthy (lastVal ev "start_date") = true
    · rw [if_pos hst] at hok
      cases hdv : dateVal ctx (lastVal ev "start_date") with
      | none => rw [hdv] at hok; exact absurd hok (by simp)
      | some startMs =>
        rw [hdv] at hok
        simp only [] at hok
        split at hok
        · exact absurd hok (by simp)
        · split at hok
          · exact absurd hok (by simp)
          · rename_i customTitle htitle
            split at hok
            · exact absurd hok (by simp)
            · rename_i blk hblk
              split at hok
              · exact absurd hok (by simp)
              · rename_i tl htl
                rw [Except.ok.injEq, Prod.mk.injEq] at hok
                rcases hok with ⟨-, hfx⟩
                subst hfx
                rcases List.mem_append.mp hx with h | h
                · exact generateEventFromTemplate_effects ctx teamId ev customTitle
                    startMs _ blk.1 blk.2 hblk x h
                · exact ih tl.1 tl.2 htl x h
    · rw [if_neg hst] at hok
      exact ih lines fx hok x hx

theorem renderCalendar_effects (ctx : Ctx) (st : Store) (teamId calendarName : String)
    (actual : Option String) (events : List RawEvent) (lines : List IcsLine) (fx : List Eff)
    (hok : renderCalendar ctx st teamId calendarName actual events = .ok (lines, fx)) :
    ∀ x ∈ fx, ∃ lid, x = Eff.fetchLocation lid := by
  unfold renderCalendar at hok
  cases hev : renderEvents ctx st teamId actual events with
  | error e => rw [hev] at hok; exact absurd hok (by simp)
  | ok evBlock =>
    rw [hev] at hok
    simp only [] at hok
    rw [Except.ok.injEq, Prod.mk.injEq] at hok
    rcases hok with ⟨-, hfx⟩
    subst hfx
    exact renderEvents_effects ctx st teamId actual events evBlock.1 evBlock.2 hev

theorem etagOf_intDec_inj (id : String) (n1 n2 : Int)
    (h : etagOf id (intDec n1) = etagOf id (intDec n2)) : n1 = n2 := by
  apply intDec_injective
  unfold etagOf at h
  have hd := congrArg String.data h
  simp only [String.data_append] at hd
  have h2 := List.append_cancel_right hd
  have h3 := List.append_cancel_left h2
  exact congrArg String.mk h3

/-! ## C10 — watermark-0 requests: headers, cache writes, conditional requests -/

/-- C10 counterexample: the claim quantifies over **every** feed request with
watermark 0, but when a cached pair already exists the `CACHE_FRESH` branch
(lines 170-184) answers first: with cached watermark `1000` and no parseable
`updated_at` (watermark 0 ≤ 1000) the 200 response's `ETag`/`Last-Modified`
come from the *cached* watermark, not from a fresh clock read, and a
conditional re-request with that prior `ETag` *does* receive a 304. -/
theorem claim_C10_counterexample :
    latestUpdate ctxFix (applyFilter (some (JVal.jstr "games")) (dropCancelled [])) = 0
    ∧ serveCalendar ctxFix stCached reqFix "abc" false
        = Outcome.ok
            { status := 200, body := some "BODY", lastModified := some 1000,
              etag := some "\"abc-1000\"",
              contentType := some "text/calendar; charset=utf-8",
              contentDisposition := some "attachment; filename=\"7_games.ics\"" }
            stCached [Eff.fetchTeam, Eff.fetchEvents]
    ∧ (some "\"abc-1000\"" : Option String) ≠ some (etagOf "abc" (intDec ctxFix.now))
    ∧ (some (1000 : Int) : Option Int) ≠ some ctxFix.now
    ∧ serveCalendar ctxFix stCached { reqFix with inm := some "\"abc-1000\"" } "abc" false
        = Outcome.ok
            { status := 304, body := none, lastModified := some 1000,
              etag := some "\"abc-1000\"", contentType := none,
              contentDisposition := none }
            stCached [] := by
  have h5 : intDec ctxFix.now = "5" := by
    rw [show ctxFix.now = (5 : Int) from rfl]
    unfold intDec
    rw [if_neg (by decide)]
    rw [show ((5 : Int)).toNat = 5 from rfl]
    rw [natDecL.eq_def, dif_pos (by decide)]
    rfl
  refine ⟨rfl, rfl, ?_, by decide, rfl⟩
  rw [h5]
  decide


theorem head_cacheKeyOf (s : String) : (cacheKeyOf s).data.head? = some 'c' := by
  unfold cacheKeyOf
  rw [String.data_append]
  rw [show ("calendar_" : String).data = 'c' :: ("alendar_" : String).data from rfl]
  rfl

theorem head_lastUpdateKeyOf (s : String) : (lastUpdateKeyOf s).data.head? = some 'c' := by
  unfold lastUpdateKeyOf cacheKeyOf
  rw [String.data_append, String.data_append]
  rw [show ("calendar_" : String).data = 'c' :: ("alendar_" : String).data from rfl]
  rfl

theorem ne_cache_of_head_o (k s : String) (h : k.data.head? = some 'o') :
    k ≠ cacheKeyOf s ∧ k ≠ lastUpdateKeyOf s := by
  constructor
  · intro he
    rw [he, head_cacheKeyOf] at h
    exact absurd h (by decide)
  · intro he
    rw [he, head_lastUpdateKeyOf] at h
    exact absurd h (by decide)

theorem refreshAccessToken_cacheFrame (ctx : Ctx) (st : Store) (r : Option RefreshData)
    (st1 : Store) (rE : List Eff)
    (h : refreshAccessToken ctx st = (r, st1, rE)) :
    (∀ k v, Eff.putK k v ∈ rE → k.data.head? = some 'o')
    ∧ (∀ key : String, key.data.head? = some 'c' → storeGet st1 key = storeGet st key) := by
  unfold refreshAccessToken at h
  cases hrt : storeGet st "oauth_refresh_token" with
  | none =>
    rw [hrt] at h
    simp only [Prod.mk.injEq] at h
    rcases h with ⟨-, h1, h2⟩
    subst h1; subst h2
    exact ⟨fun k v hm => absurd hm (List.not_mem_nil _), fun key _ => rfl⟩
  | some rt =>
    rw [hrt] at h
    simp only [] at h
    by_cases hrtE : rt = ""
    · rw [if_pos hrtE] at h
      simp only [Prod.mk.injEq] at h
      rcases h with ⟨-, h1, h2⟩
      subst h1; subst h2
      exact ⟨fun k v hm => absurd hm (List.not_mem_nil _), fun key _ => rfl⟩
    · rw [if_neg hrtE] at h
      cases hres : ctx.refreshResult with
      | none =>
        rw [hres] at h
        simp only [Prod.mk.injEq] at h
        rcases h with ⟨-, h1, h2⟩
        subst h1; subst h2
        constructor
        · intro k v hm
          rcases List.mem_cons.mp hm with h3 | h3
          · exact Eff.noConfusion h3
          · exact absurd h3 (List.not_mem_nil _)
        · exact fun key _ => rfl
      | some td =>
        rw [hres] at h
        simp only [] at h
        cases hrt2 : td.refresh_token with
        | none =>
          rw [hrt2] at h
          simp only [Prod.mk.injEq] at h
          rcases h with ⟨-, h1, h2⟩
          subst h1; subst h2
          constructor
          · intro k v hm
            simp only [List.mem_append, List.mem_cons, List.not_mem_nil, or_false] at hm
            rcases hm with (h3 | h3) | h3
            · exact Eff.noConfusion h3
            · injection h3 with hk hv; subst hk; rfl
            · injection h3 with hk hv; subst hk; rfl
          · intro key hkey
            have hne : ∀ k0 : String, k0.data.head? = some 'o' → k0 ≠ key := by
              intro k0 h0 he
              rw [he] at h0
              exact absurd (h0.symm.trans hkey) (by decide)
            rw [storeGet_storePut_ne _ _ _ _ (hne "oauth_expires_at" rfl),
                storeGet_storePut_ne _ _ _ _ (hne "oauth_access_token" rfl)]
        | some r2 =>
          rw [hrt2] at h
          simp only [] at h
          by_cases hr2E : r2 = ""
          · rw [if_pos hr2E] at h
            simp only [Prod.mk.injEq] at h
            rcases h with ⟨-, h1, h2⟩
            subst h1; subst h2
            constructor
            · intro k v hm
              simp only [List.mem_append, List.mem_cons, List.not_mem_nil, or_false] at hm
              rcases hm with (h3 | h3) | h3
              · exact Eff.noConfusion h3
              · injection h3 with hk hv; subst hk; rfl
              · injection h3 with hk hv; subst hk; rfl
            · intro key hkey
              have hne : ∀ k0 : String, k0.data.head? = some 'o' → k0 ≠ key := by
                intro k0 h0 he
                rw [he] at h0
                exact absurd (h0.symm.trans hkey) (by decide)
              rw [storeGet_storePut_ne _ _ _ _ (hne "oauth_expires_at" rfl),
                  storeGet_storePut_ne _ _ _ _ (hne "oauth_access_token" rfl)]
          · rw [if_neg hr2E] at h
            simp only [Prod.mk.injEq] at h
            rcases h with ⟨-, h1, h2⟩
            subst h1; subst h2
            constructor
            · intro k v hm
              simp only [List.mem_append, List.mem_cons, List.not_mem_nil, or_false] at hm
              rcases hm with ((h3 | h3) | h3) | h3
              · exact Eff.noConfusion h3
              · injection h3 with hk hv; subst hk; rfl
              · injection h3 with hk hv; subst hk; rfl
              · injection h3 with hk hv; subst hk; rfl
            · intro key hkey
              have hne : ∀ k0 : String, k0.data.head? = some 'o' → k0 ≠ key := by
                intro k0 h0 he
                rw [he] at h0
                exact absurd (h0.symm.trans hkey) (by decide)
              rw [storeGet_storePut_ne _ _ _ _ (hne "oauth_expires_at" rfl),
                  storeGet_storePut_ne _ _ _ _ (hne "oauth_refresh_token" rfl),
                  storeGet_storePut_ne _ _ _ _ (hne "oauth_access_token" rfl)]

theorem sc_gen_char (ctx : Ctx) (req : Req) (calendarId : String) (forceText : Bool)
    (teamId ftStr : String) (actual : Option String) (events : List RawEvent)
    (stX : Store) (effs : List Eff) (resp : Resp) (stOut : Store) (effsOut : List Eff)
    (hok : sc_gen ctx req calendarId forceText teamId ftStr actual events 0 stX effs
      = Outcome.ok resp stOut effsOut) :
    stOut = stX
    ∧ (∃ tail, effsOut = effs ++ tail ∧ ∀ k v, Eff.putK k v ∉ tail)
    ∧ resp.lastModified = some ctx.now
    ∧ resp.etag = some (etagOf calendarId (intDec ctx.now)) := by
  unfold sc_gen at hok
  simp only [] at hok
  cases hr : renderCalendar ctx stX teamId
      (strOr (storeGet stX ("custom_team_name_" ++ teamId)) (strOr actual "")) actual events with
  | error e =>
    rw [hr] at hok
    exact absurd hok (by simp)
  | ok rendered =>
    rw [hr] at hok
    simp only [] at hok
    simp only [gt_iff_lt, lt_self_iff_false, if_false, eq_self_iff_true, if_true] at hok
    rw [Outcome.ok.injEq] at hok
    rcases hok with ⟨hresp, hst, heff⟩
    refine ⟨hst.symm, ⟨rendered.2, heff.symm, ?_⟩, ?_, ?_⟩
    · intro k v hm
      obtain ⟨lid, he⟩ := renderCalendar_effects ctx stX teamId _ actual events
        rendered.1 rendered.2 (by rw [hr]) (Eff.putK k v) hm
      exact Eff.noConfusion he
    · rw [← hresp]
    · rw [← hresp]

theorem sc_team_char (ctx : Ctx) (req : Req) (calendarId : String) (forceText : Bool)
    (teamId : String) (filterTypeV : Option JVal) (ftStr : String)
    (cachedLastUpdate : Option String) (stX : Store) (effs : List Eff)
    (resp : Resp) (stOut : Store) (effsOut : List Eff)
    (hwm : ∀ events0, ctx.eventsFetch = some events0 →
      ∀ ev ∈ applyFilter filterTypeV (dropCancelled events0),
        jsTruthy (findVal ev "updated_at") = true →
          dateVal ctx (findVal ev "updated_at") = none)
    (hok : sc_team ctx req calendarId forceText teamId filterTypeV ftStr
        none cachedLastUpdate stX effs = Outcome.ok resp stOut effsOut) :
    stOut = stX
    ∧ (∃ tail, effsOut = effs ++ tail ∧ ∀ k v, Eff.putK k v ∉ tail)
    ∧ (resp.status = 200 →
        resp.lastModified = some ctx.now
        ∧ resp.etag = some (etagOf calendarId (intDec ctx.now))) := by
  unfold sc_team at hok
  simp only [] at hok
  cases hev : ctx.eventsFetch with
  | none =>
    rw [hev] at hok
    rw [Outcome.ok.injEq] at hok
    rcases hok with ⟨hresp, hst, heff⟩
    refine ⟨hst.symm, ⟨[Eff.fetchTeam, Eff.fetchEvents], ?_, ?_⟩, ?_⟩
    · rw [← heff, List.append_assoc]
      rfl
    · intro k v hm
      rcases List.mem_cons.mp hm with h3 | h3
      · exact Eff.noConfusion h3
      · rcases List.mem_cons.mp h3 with h4 | h4
        · exact Eff.noConfusion h4
        · exact absurd h4 (List.not_mem_nil _)
    · intro h200
      rw [← hresp] at h200
      exact absurd h200 (by decide)
  | some events0 =>
    rw [hev] at hok
    simp only [] at hok
    unfold sc_fetched at hok
    simp only [optTruthy, Bool.false_and, Bool.false_eq_true, if_false] at hok
    have hlat : latestUpdate ctx (applyFilter filterTypeV (dropCancelled events0)) = 0 :=
      latestUpdate_zero ctx _ (hwm events0 hev)
    rw [hlat] at hok
    obtain ⟨hst, ⟨tail, htail, hmem⟩, hlm, hetag⟩ :=
      sc_gen_char ctx req calendarId forceText teamId ftStr ctx.teamNameFetch
        (applyFilter filterTypeV (dropCancelled events0)) stX
        ((effs ++ [Eff.fetchTeam]) ++ [Eff.fetchEvents]) resp stOut effsOut hok
    refine ⟨hst, ⟨[Eff.fetchTeam, Eff.fetchEvents] ++ tail, ?_, ?_⟩, fun _ => ⟨hlm, hetag⟩⟩
    · rw [htail, List.append_assoc, List.append_assoc]
      rfl
    · intro k v hm
      rcases List.mem_append.mp hm with h3 | h3
      · rcases List.mem_cons.mp h3 with h4 | h4
        · exact Eff.noConfusion h4
        · rcases List.mem_cons.mp h4 with h5 | h5
          · exact Eff.noConfusion h5
          · exact absurd h5 (List.not_mem_nil _)
      · exact absurd h3 (hmem k v)

theorem sc_auth_char (ctx : Ctx) (req : Req) (calendarId : String) (forceText : Bool)
    (teamId : String) (filterTypeV : Option JVal) (ftStr : String)
    (cachedLastUpdate : Option String) (stX : Store) (effs : List Eff)
    (resp : Resp) (stOut : Store) (effsOut : List Eff)
    (hX1 : storeGet stX (cacheKeyOf calendarId) = none)
    (hX2 : storeGet stX (lastUpdateKeyOf calendarId) = none)
    (hwm : ∀ events0, ctx.eventsFetch = some events0 →
      ∀ ev ∈ applyFilter filterTypeV (dropCancelled events0),
        jsTruthy (findVal ev "updated_at") = true →
          dateVal ctx (findVal ev "updated_at") = none)
    (hok : sc_auth ctx req calendarId forceText teamId filterTypeV ftStr
        none cachedLastUpdate stX effs = Outcome.ok resp stOut effsOut) :
    storeGet stOut (cacheKeyOf calendarId) = none
    ∧ storeGet stOut (lastUpdateKeyOf calendarId) = none
    ∧ (∃ tail, effsOut = effs ++ tail ∧ ∀ k v, Eff.putK k v ∈ tail →
        k ≠ cacheKeyOf calendarId ∧ k ≠ lastUpdateKeyOf calendarId)
    ∧ (resp.status = 200 →
        resp.lastModified = some ctx.now
        ∧ resp.etag = some (etagOf calendarId (intDec ctx.now))) := by
  unfold sc_auth at hok
  simp only [] at hok
  by_cases hacc : optTruthy (storeGet stX "oauth_access_token") = true
  · rw [if_pos hacc] at hok
    obtain ⟨hst, ⟨tail, htail, hmem⟩, h200⟩ :=
      sc_team_char ctx req calendarId forceText teamId filterTypeV ftStr
        cachedLastUpdate stX effs resp stOut effsOut hwm hok
    subst hst
    exact ⟨hX1, hX2, ⟨tail, htail, fun k v hm => absurd hm (hmem k v)⟩, h200⟩
  · rw [if_neg hacc] at hok
    split at hok
    · rename_i x st1 rE1 heq
      obtain ⟨hput, hframe⟩ := refreshAccessToken_cacheFrame ctx stX (some x) st1 rE1 heq
      have hR1 : storeGet st1 (cacheKeyOf calendarId) = none :=
        (hframe _ (head_cacheKeyOf calendarId)).trans hX1
      have hR2 : storeGet st1 (lastUpdateKeyOf calendarId) = none :=
        (hframe _ (head_lastUpdateKeyOf calendarId)).trans hX2
      obtain ⟨hst, ⟨tail, htail, hmem⟩, h200⟩ :=
        sc_team_char ctx req calendarId forceText teamId filterTypeV ftStr
          cachedLastUpdate st1 (effs ++ rE1) resp stOut effsOut hwm hok
      subst hst
      refine ⟨hR1, hR2, ⟨rE1 ++ tail, ?_, ?_⟩, h200⟩
      · rw [htail, List.append_assoc]
      · intro k v hm
        rcases List.mem_append.mp hm with h3 | h3
        · exact ne_cache_of_head_o k calendarId (hput k v h3)
        · exact absurd h3 (hmem k v)
    · rename_i st1 rE1 heq
      obtain ⟨hput, hframe⟩ := refreshAccessToken_cacheFrame ctx stX none st1 rE1 heq
      have hR1 : storeGet st1 (cacheKeyOf calendarId) = none :=
        (hframe _ (head_cacheKeyOf calendarId)).trans hX1
      have hR2 : storeGet st1 (lastUpdateKeyOf calendarId) = none :=
        (hframe _ (head_lastUpdateKeyOf calendarId)).trans hX2
      rw [Outcome.ok.injEq] at hok
      rcases hok with ⟨hresp, hst, heff⟩
      refine ⟨?_, ?_, ⟨rE1, heff.symm, ?_⟩, ?_⟩
      · rw [← hst]; exact hR1
      · rw [← hst]; exact hR2
      · intro k v hm
        exact ne_cache_of_head_o k calendarId (hput k v hm)
      · intro h200
        rw [← hresp] at h200
        exact absurd h200 (by decide)

/-- C10 amended: for every feed request with watermark 0 over the filtered
events, **no existing cache entry** (both cache keys absent) and no
`refresh=true`: whatever outcome `serveCalendar` reaches, it writes neither
cache key — no put of either cache key appears in the effect trace and both
keys are still absent from the resulting store — and any 200 response
carries `Last-Modified` read from the current clock and the `ETag` derived
from it; distinct clock instants give distinct `ETag` values, and while the
cache keys stay absent no conditional request is ever answered 304. -/
theorem claim_C10_amended (ctx : Ctx) (st : Store) (req : Req) (calendarId : String)
    (forceText : Bool) (tokenData : JVal)
    (hparse : parseCalendarToken st calendarId = Except.ok (some tokenData))
    (htr : jvTruthy tokenData = true)
    (hfr : req.refreshParam ≠ some "true")
    (hnc : storeGet st (cacheKeyOf calendarId) = none)
    (hnl : storeGet st (lastUpdateKeyOf calendarId) = none)
    (hwm : ∀ events0, ctx.eventsFetch = some events0 →
      ∀ ev ∈ applyFilter (jvProp tokenData "filterType") (dropCancelled events0),
        jsTruthy (findVal ev "updated_at") = true →
          dateVal ctx (findVal ev "updated_at") = none) :
    (∀ resp stOut effs,
       serveCalendar ctx st req calendarId forceText = Outcome.ok resp stOut effs →
       (∀ v, Eff.putK (cacheKeyOf calendarId) v ∉ effs)
       ∧ (∀ v, Eff.putK (lastUpdateKeyOf calendarId) v ∉ effs)
       ∧ storeGet stOut (cacheKeyOf calendarId) = none
       ∧ storeGet stOut (lastUpdateKeyOf calendarId) = none
       ∧ (resp.status = 200 →
           resp.lastModified = some ctx.now
           ∧ resp.etag = some (etagOf calendarId (intDec ctx.now))))
    ∧ (∀ n1 n2 : Int, n1 ≠ n2 →
        etagOf calendarId (intDec n1) ≠ etagOf calendarId (intDec n2))
    ∧ (∀ ctx2 req2 forceText2 resp2 st2 effs2,
        serveCalendar ctx2 st req2 calendarId forceText2 = Outcome.ok resp2 st2 effs2 →
        resp2.status ≠ 304) := by
  have hfrb : (req.refreshParam == some "true") = false := by simp [hfr]
  refine ⟨?_, ?_, ?_⟩
  · intro resp stOut effs hok
    unfold serveCalendar at hok
    rw [hparse] at hok
    simp only [htr, if_true, hfrb, Bool.or_false, hnc, hnl, ite_self,
      Bool.false_eq_true, if_false] at hok
    unfold sc_cond at hok
    simp only [optTruthy, Bool.false_and, Bool.false_eq_true, if_false] at hok
    obtain ⟨h1, h2, ⟨tail, htail, hmem⟩, h200⟩ :=
      sc_auth_char ctx req calendarId forceText
        (jvPropToString tokenData "teamId") (jvProp tokenData "filterType")
        (jvPropToString tokenData "filterType")
        none st [] resp stOut effs hnc hnl hwm hok
    refine ⟨?_, ?_, h1, h2, h200⟩
    · intro v hv
      rw [htail] at hv
      exact (hmem _ _ hv).1 rfl
    · intro v hv
      rw [htail] at hv
      exact (hmem _ _ hv).2 rfl
  · intro n1 n2 hne heq
    exact hne (etagOf_intDec_inj calendarId n1 n2 heq)
  · intro ctx2 req2 forceText2 resp2 st2 effs2 hok
    exact serveCalendar_no304_of_no_cache ctx2 st req2 calendarId forceText2
      resp2 st2 effs2 hnc hok

/-- A store holding only the token mapping and an access token — no cache
entry under either cache key. -/
def stFresh : Store :=
  [("calendar_token:abc", stringifyTokenMapping "7" "games"),
   ("oauth_access_token", "tk")]

/-- The document rendered for an empty event list and an empty calendar
name: header block plus footer, no `X-WR-CALNAME`, no event blocks. -/
def calLinesFresh : List IcsLine :=
  [IcsLine.mk "BEGIN" "VCALENDAR", IcsLine.mk "VERSION" "2.0",
   IcsLine.mk "PRODID" "-//TeamSnap Custom Calendar//TeamSnap Events//EN",
   IcsLine.mk "CALSCALE" "GREGORIAN", IcsLine.mk "METHOD" "PUBLISH",
   IcsLine.mk "END" "VCALENDAR"]

/-- C10 amended, concrete: on a store with no cache entry the empty event
list (watermark 0) yields a 200 whose headers come from the clock — shown
by direct evaluation — and the amended theorem's conclusions hold for it:
no cache-key put, cache keys still absent, clock-derived headers on any
200, ETag injectivity across instants, and no 304 against this store. -/
theorem claim_C10_amended_witness :
    storeGet stFresh (cacheKeyOf "abc") = none
    ∧ serveCalendar ctxFix stFresh reqFix "abc" false
        = Outcome.ok
            { status := 200, body := some (flattenLines calLinesFresh),
              lastModified := some ctxFix.now,
              etag := some (etagOf "abc" (intDec ctxFix.now)),
              contentType := some "text/calendar; charset=utf-8",
              contentDisposition := some "attachment; filename=\"7_games.ics\"" }
            stFresh [Eff.fetchTeam, Eff.fetchEvents]
    ∧ ((∀ resp stOut effs,
          serveCalendar ctxFix stFresh reqFix "abc" false = Outcome.ok resp stOut effs →
          (∀ v, Eff.putK (cacheKeyOf "abc") v ∉ effs)
          ∧ (∀ v, Eff.putK (lastUpdateKeyOf "abc") v ∉ effs)
          ∧ storeGet stOut (cacheKeyOf "abc") = none
          ∧ storeGet stOut (lastUpdateKeyOf "abc") = none
          ∧ (resp.status = 200 →
              resp.lastModified = some ctxFix.now
              ∧ resp.etag = some (etagOf "abc" (intDec ctxFix.now))))
       ∧ (∀ n1 n2 : Int, n1 ≠ n2 →
           etagOf "abc" (intDec n1) ≠ etagOf "abc" (intDec n2))
       ∧ (∀ ctx2 req2 forceText2 resp2 st2 effs2,
           serveCalendar ctx2 stFresh req2 "abc" forceText2 = Outcome.ok resp2 st2 effs2 →
           resp2.status ≠ 304)) := by
  refine ⟨rfl, rfl, ?_⟩
  exact claim_C10_amended ctxFix stFresh reqFix "abc" false
    (JVal.jobj [("teamId", JVal.jstr "7"), ("filterType", JVal.jstr "games")])
    rfl rfl (by decide) rfl rfl
    (fun events0 hev0 ev hm _ => by
      have h0 : ([] : List RawEvent) = events0 := Option.some.inj hev0
      rw [← h0] at hm
      exact absurd hm (List.not_mem_nil ev))
